import Mathlib

/-!
# FGitSourceControlMenu

A shallow embedding of `Source/GitSourceControl/Private/GitSourceControlMenu.cpp`
(the toolbar menu of the Git source control plugin) and theorems about it.

The menu object is glue between the editor and the source control provider, so
the embedding is state passing over a `World`:

* the two members of `FGitSourceControlMenu` (`ViewMenuExtenderHandle`,
  `OperationInProgressNotification`),
* the editor state the code mutates (the list of toolbar menu extenders of the
  LevelEditor module, the notification items of the notification manager),
* `Trace`, the calls made to external collaborators, oldest first.

What the editor and the provider answer during one call of a handler is a
`Host` value: the handlers are functions of it.

Modelling choices:

* `Provider.Execute` is a recorded call that returns the result code the host
  gives. The completion of an asynchronous operation reaches the menu as a
  later, separate call of `OnSourceControlOperationComplete`.
* `OperationInProgressNotification` is a weak pointer; it is valid exactly
  while it refers to an item. An item is named by its position in the list of
  the notification manager, and the manager keeps every item it made.
* `FMessageLog::Notify` is recorded as its own call; what the engine shows for
  it is not a call of `AddNotification` by the menu.
* `FText::Format` of a pattern with the one argument `{0}` is the pattern with
  the operation name written in its place.
-/

namespace GitSourceControl

/-! ## Data model -/

/-- Result code of `ISourceControlProvider::Execute` (`ECommandResult::Type`). -/
inductive ECommandResult where
  | Failed
  | Succeeded
  | Cancelled
  deriving DecidableEq, Repr

/-- Concurrency mode handed to `Execute` (`EConcurrency::Type`). -/
inductive EConcurrency where
  | Synchronous
  | Asynchronous
  deriving DecidableEq, Repr

/-- The three operation classes the menu creates: `FGitPush`, `FSync`, `FUpdateStatus`. -/
inductive EOperation where
  | GitPush
  | Sync
  | UpdateStatus
  deriving DecidableEq, Repr

/-- A source control operation object: its class and the two flags `RefreshClicked`
sets on an `FUpdateStatus` (both start out false on a created operation). -/
structure FSourceControlOperation where
  Kind : EOperation
  bCheckingAllFiles : Bool
  bGetOpenedOnly : Bool
  deriving DecidableEq, Repr

/-- A loaded package (`UPackage*`): the name, whether it contains a map, and
whether it is fully loaded when `UnlinkPackages` starts. -/
structure UPackage where
  Name : String
  bContainsMap : Bool
  bFullyLoaded : Bool
  deriving DecidableEq, Repr

/-- The fields of `FNotificationInfo` the menu writes. `none` is a field the code
leaves at the value the engine's constructor gave it; durations are in
milliseconds (the code writes `0.0f`, `1.0f` and `8.0f` seconds). -/
structure FNotificationInfo where
  Text : String
  bFireAndForget : Option Bool
  ExpireDuration : Option Nat
  FadeOutDuration : Option Nat
  bUseSuccessFailIcons : Option Bool
  Image : Option String
  deriving DecidableEq, Repr

/-- Completion state of a notification item (`SNotificationItem::ECompletionState`). -/
inductive ECompletionState where
  | CS_None
  | CS_Pending
  | CS_Success
  | CS_Fail
  deriving DecidableEq, Repr

/-- A notification item held by the notification manager. An item is named by its
position in the manager's list; `bExpired` is set by `ExpireAndFadeout`. -/
structure SNotificationItem where
  Info : FNotificationInfo
  CompletionState : ECompletionState
  bExpired : Bool
  deriving DecidableEq, Repr

/-- Handle of a delegate (`FDelegateHandle`). -/
abbrev FDelegateHandle := Nat

/-- One entry of the host's list of toolbar source control menu extenders; the
payload is the delegate target, which the menu code never reads. -/
structure FLevelEditorMenuExtender where
  Handle : FDelegateHandle
  Target : String
  deriving DecidableEq, Repr

/-- A call made to an external collaborator. -/
inductive Event where
  | SaveDirtyPackages
  | MessageLogError (Log Text : String)
  | MessageLogWarning (Log Text : String)
  | MessageLogInfo (Log Text : String)
  | MessageLogNotify (Log : String)
  | UE_LOG (Format : String) (Arg : Nat)
  | FlushAsyncLoading
  | FullyLoad (Package : UPackage)
  | ResetLoaders (Package : UPackage)
  | Execute (Operation : FSourceControlOperation) (Files : List String)
      (Concurrency : EConcurrency) (bCompleteDelegate : Bool)
  | AddNotification (Info : FNotificationInfo)
  | SetCompletionState (Item : Nat) (State : ECompletionState)
  | ExpireAndFadeout (Item : Nat)
  | PackageToolsReloadPackages (Packages : List UPackage)
  | PackageToolsUnloadPackages (Packages : List UPackage)
  deriving DecidableEq, Repr

/-- What the editor and the provider answer during one call of a handler. None of
these is code of the menu: each field is the result of one external function. -/
structure Host where
  /-- Result code `Provider.Execute` returns. -/
  ExecuteResult : FSourceControlOperation → ECommandResult
  /-- Whether `FSlateNotificationManager::AddNotification` returns an item
  (the code tests the returned pointer with `IsValid`). -/
  bAddNotificationReturnsItem : Bool
  /-- `ISourceControlOperation::GetName`. -/
  GetName : EOperation → String
  /-- `ISourceControlOperation::GetInProgressString`. -/
  GetInProgressString : EOperation → String
  /-- Return value of `FEditorFileUtils::SaveDirtyPackages`. -/
  bSaveDirtyPackages : Bool
  /-- What `GetDirtyWorldPackages` appends. -/
  DirtyWorldPackages : List UPackage
  /-- What `GetDirtyContentPackages` appends. -/
  DirtyContentPackages : List UPackage
  /-- What `FindPackagesInDirectory` finds in the content directory. -/
  PackagesInContentDir : List String
  /-- `TryConvertFilenameToLongPackageName`: the package name, or the failure reason. -/
  TryConvertFilenameToLongPackageName : String → Except String String
  /-- `FindPackage(nullptr, Name)`. -/
  FindPackage : String → Option UPackage
  /-- `FPackageName::GetMapPackageExtension`. -/
  MapPackageExtension : String
  /-- `FPackageName::GetAssetPackageExtension`. -/
  AssetPackageExtension : String
  /-- `FPackageName::LongPackageNameToFilename`. -/
  LongPackageNameToFilename : String → String → String
  /-- `FPaths::FileExists`, asked after the sync. -/
  FileExists : String → Bool

/-- State the menu code reads and writes. -/
structure World where
  /-- Member `ViewMenuExtenderHandle`. -/
  ViewMenuExtenderHandle : FDelegateHandle
  /-- Member `OperationInProgressNotification`: the item the weak pointer refers
  to, `none` when the pointer is not valid. -/
  OperationInProgressNotification : Option Nat
  /-- Extender list of the LevelEditor module; `none` when the module is not loaded. -/
  LevelEditorMenuExtenders : Option (List FLevelEditorMenuExtender)
  /-- Items of the notification manager, oldest first. -/
  Notifications : List SNotificationItem
  /-- Calls made so far, oldest first. -/
  Trace : List Event
  deriving DecidableEq, Repr

/-- Append one call to the trace. -/
def World.emit (w : World) (e : Event) : World :=
  { w with Trace := w.Trace ++ [e] }

/-- Validity of the weak pointer (`OperationInProgressNotification.IsValid()`). -/
def World.IsValid (w : World) : Bool :=
  w.OperationInProgressNotification.isSome

/-- The calls made between world `w` and the later world `w2`. -/
def emitted (w w2 : World) : List Event :=
  w2.Trace.drop w.Trace.length

/-! ## Engine primitives the code calls -/

/-- Apply `f` to the element at position `i`, if there is one. -/
def modifyAt {α : Type} (f : α → α) : Nat → List α → List α
  | _, [] => []
  | 0, x :: xs => f x :: xs
  | i + 1, x :: xs => x :: modifyAt f i xs

/-- The call `FSlateNotificationManager::Get().AddNotification(Info)`: a new item at the end of
the manager's list, or a null pointer when the manager creates none. -/
def AddNotification (h : Host) (Info : FNotificationInfo) (w : World) : Option Nat × World :=
  let w1 := w.emit (Event.AddNotification Info)
  if h.bAddNotificationReturnsItem then
    let Item : SNotificationItem :=
      { Info := Info, CompletionState := ECompletionState.CS_None, bExpired := false }
    (some w1.Notifications.length, { w1 with Notifications := w1.Notifications ++ [Item] })
  else
    (none, w1)

/-- The call `Item->SetCompletionState(State)`. -/
def SetCompletionState (Item : Nat) (State : ECompletionState) (w : World) : World :=
  let w1 := w.emit (Event.SetCompletionState Item State)
  { w1 with Notifications := modifyAt (fun n => { n with CompletionState := State }) Item w1.Notifications }

/-- The call `Item->ExpireAndFadeout()`. -/
def ExpireAndFadeout (Item : Nat) (w : World) : World :=
  let w1 := w.emit (Event.ExpireAndFadeout Item)
  { w1 with Notifications := modifyAt (fun n => { n with bExpired := true }) Item w1.Notifications }

/-- The text `FText::Format(LOCTEXT(.., "{0} operation was successful!"), FText::FromName(Name))`. -/
def SuccessText (Name : String) : String :=
  Name ++ " operation was successful!"

/-- The text `FText::Format(LOCTEXT(.., "Error: {0} operation failed!"), FText::FromName(Name))`. -/
def FailureText (Name : String) : String :=
  "Error: " ++ Name ++ " operation failed!"

/-- The call `ISourceControlOperation::Create<T>()`. -/
def Create (Kind : EOperation) : FSourceControlOperation :=
  { Kind := Kind, bCheckingAllFiles := false, bGetOpenedOnly := false }

/-- The call `Provider.Execute(Operation, Files, Concurrency, Delegate)`: recorded, and answered by the host. -/
def Execute (h : Host) (Operation : FSourceControlOperation) (Files : List String)
    (Concurrency : EConcurrency) (bCompleteDelegate : Bool) (w : World) : ECommandResult × World :=
  (h.ExecuteResult Operation, w.emit (Event.Execute Operation Files Concurrency bCompleteDelegate))

/-! ## FGitSourceControlMenu -/

/-- The extender `FLevelEditorMenuExtender::CreateRaw(this, &OnExtendLevelEditorViewMenu)`
makes; `NewHandle` is the handle the engine gives the new delegate. -/
def ViewMenuExtender (NewHandle : FDelegateHandle) : FLevelEditorMenuExtender :=
  { Handle := NewHandle, Target := "FGitSourceControlMenu::OnExtendLevelEditorViewMenu" }

/-- `FGitSourceControlMenu::Register`; `NewHandle` is the handle of the delegate `CreateRaw` makes. -/
def Register (NewHandle : FDelegateHandle) (w : World) : World :=
  match w.LevelEditorMenuExtenders with
  | some MenuExtenders =>
    let MenuExtenders2 := MenuExtenders ++ [ViewMenuExtender NewHandle]
    { w with
      LevelEditorMenuExtenders := some MenuExtenders2,
      ViewMenuExtenderHandle := (MenuExtenders2.getLast (by simp [MenuExtenders2])).Handle }
  | none => w

/-- `FGitSourceControlMenu::Unregister`. -/
def Unregister (w : World) : World :=
  match w.LevelEditorMenuExtenders with
  | some MenuExtenders =>
    let Kept := MenuExtenders.filter (fun Extender => !(Extender.Handle == w.ViewMenuExtenderHandle))
    { w with LevelEditorMenuExtenders := some Kept }
  | none => w

/-- The `FNotificationInfo` that `DisplayInProgressNotification` fills in: not fire-and-forget,
expire duration 0 s, fade-out duration 1 s. -/
def InProgressInfo (InOperationInProgressString : String) : FNotificationInfo :=
  { Text := InOperationInProgressString
    bFireAndForget := some false
    ExpireDuration := some 0
    FadeOutDuration := some 1000
    bUseSuccessFailIcons := none
    Image := none }

/-- `FGitSourceControlMenu::DisplayInProgressNotification`. -/
def DisplayInProgressNotification (h : Host) (InOperationInProgressString : String) (w : World) : World :=
  if !w.IsValid then
    let Info := InProgressInfo InOperationInProgressString
    let r := AddNotification h Info w
    let w1 : World := { r.2 with OperationInProgressNotification := r.1 }
    match w1.OperationInProgressNotification with
    | some Item => SetCompletionState Item ECompletionState.CS_Pending w1
    | none => w1
  else
    w

/-- `FGitSourceControlMenu::RemoveInProgressNotification`. -/
def RemoveInProgressNotification (w : World) : World :=
  match w.OperationInProgressNotification with
  | some Item =>
    let w1 := ExpireAndFadeout Item w
    { w1 with OperationInProgressNotification := none }
  | none => w

/-- `FGitSourceControlMenu::DisplaySucessNotification`. -/
def DisplaySucessNotification (h : Host) (InOperationName : String) (w : World) : World :=
  let NotificationText := SuccessText InOperationName
  let Info : FNotificationInfo :=
    { Text := NotificationText
      bFireAndForget := none
      ExpireDuration := none
      FadeOutDuration := none
      bUseSuccessFailIcons := some true
      Image := some "NotificationList.SuccessImage" }
  let w1 := (AddNotification h Info w).2
  w1.emit (Event.MessageLogInfo "LogSourceControl" NotificationText)

/-- `FGitSourceControlMenu::DisplayFailureNotification`. -/
def DisplayFailureNotification (h : Host) (InOperationName : String) (w : World) : World :=
  let NotificationText := FailureText InOperationName
  let Info : FNotificationInfo :=
    { Text := NotificationText
      bFireAndForget := none
      ExpireDuration := some 8000
      FadeOutDuration := none
      bUseSuccessFailIcons := none
      Image := none }
  let w1 := (AddNotification h Info w).2
  w1.emit (Event.MessageLogInfo "LogSourceControl" NotificationText)

/-- `FGitSourceControlMenu::OnSourceControlOperationComplete`. -/
def OnSourceControlOperationComplete (h : Host) (InOperation : FSourceControlOperation)
    (InResult : ECommandResult) (w : World) : World :=
  let w1 := RemoveInProgressNotification w
  if InResult = ECommandResult.Succeeded then
    DisplaySucessNotification h (h.GetName InOperation.Kind) w1
  else
    DisplayFailureNotification h (h.GetName InOperation.Kind) w1

/-- `TArray::RemoveAll(Predicate)` for a predicate with an effect on a captured
state: the predicate is evaluated once per element, first to last, and the
elements it rejects stay in their order. -/
def RemoveAll {α σ : Type} (Predicate : α → σ → Bool × σ) : List α → σ → List α × σ
  | [], s => ([], s)
  | x :: xs, s =>
    let r := Predicate x s
    let rest := RemoveAll Predicate xs r.2
    (if r.1 then rest.1 else x :: rest.1, rest.2)

/-- Name of the file of a package, as the lambda of `ReloadPackages` computes it. -/
def PackageFilename (h : Host) (InPackage : UPackage) : String :=
  let PackageExtension :=
    if InPackage.bContainsMap then h.MapPackageExtension else h.AssetPackageExtension
  h.LongPackageNameToFilename InPackage.Name PackageExtension

/-- Body of the loop of `UnlinkPackages` over the package names; `acc` is `LoadedPackages`
and the world so far. `Package->IsFullyLoaded()` reads the live object: the package is fully
loaded if it was when `UnlinkPackages` started (`bFullyLoaded`) or if the loop has met it
before, since every package in `LoadedPackages` has been through `FullyLoad` by then. -/
def UnlinkPackagesBody (h : Host) (acc : List UPackage × World) (PackageName : String) :
    List UPackage × World :=
  match h.FindPackage PackageName with
  | some Package =>
    let bIsFullyLoaded := Package.bFullyLoaded || acc.1.contains Package
    let w1 :=
      if !bIsFullyLoaded then
        (acc.2.emit Event.FlushAsyncLoading).emit (Event.FullyLoad Package)
      else
        acc.2
    (acc.1 ++ [Package], w1.emit (Event.ResetLoaders Package))
  | none => acc

/-- `FGitSourceControlMenu::UnlinkPackages`: the loaded packages, and the world after. -/
def UnlinkPackages (h : Host) (InPackageNames : List String) (w : World) : List UPackage × World :=
  if InPackageNames.length > 0 then
    let r := InPackageNames.foldl (UnlinkPackagesBody h) ([], w)
    (r.1, r.2.emit (Event.UE_LOG "Reseted Loader for %d Packages" r.1.length))
  else
    ([], w)

/-- `FGitSourceControlMenu::ReloadPackages`. -/
def ReloadPackages (h : Host) (InLoadedPackages : List UPackage) (w : World) : World :=
  let w1 := w.emit (Event.UE_LOG "Reloading %d Packages..." InLoadedPackages.length)
  let r := RemoveAll
    (fun (InPackage : UPackage) (PackagesToUnload : List UPackage) =>
      if !h.FileExists (PackageFilename h InPackage) then
        (true, PackagesToUnload ++ [InPackage])
      else
        (false, PackagesToUnload))
    InLoadedPackages []
  let w2 := w1.emit (Event.PackageToolsReloadPackages r.1)
  w2.emit (Event.PackageToolsUnloadPackages r.2)

/-- Body of the loop of `UnlinkSyncAndReloadPackages` over the paths found in the content
directory; `acc` is `PackageNames` and the world so far. -/
def ConvertPackagePathsBody (h : Host) (acc : List String × World) (Path : String) :
    List String × World :=
  match h.TryConvertFilenameToLongPackageName Path with
  | Except.ok PackageName => (acc.1 ++ [PackageName], acc.2)
  | Except.error FailureReason =>
    (acc.1, acc.2.emit (Event.MessageLogError "GitSourceControl" FailureReason))

/-- The loop of `UnlinkSyncAndReloadPackages` that turns the paths found in the content
directory into package names, logging an error for each path that does not convert. -/
def ConvertPackagePaths (h : Host) (PackageRelativePaths : List String) (w : World) :
    List String × World :=
  PackageRelativePaths.foldl (ConvertPackagePathsBody h) ([], w)

/-- The value of `bOkToExit` that `UnlinkSyncAndReloadPackages` tests: the answer of
`SaveDirtyPackages`, and then that no dirty package is left. -/
def OkToExit (h : Host) : Bool :=
  let bOkToExit := h.bSaveDirtyPackages
  if bOkToExit then
    let DirtyPackages : List UPackage := []
    let DirtyPackages := DirtyPackages ++ h.DirtyWorldPackages
    let DirtyPackages := DirtyPackages ++ h.DirtyContentPackages
    DirtyPackages.length == 0
  else
    bOkToExit

/-- `FGitSourceControlMenu::UnlinkSyncAndReloadPackages`. -/
def UnlinkSyncAndReloadPackages (h : Host) (w : World) : World :=
  let w1 := w.emit Event.SaveDirtyPackages
  if OkToExit h then
    let n := ConvertPackagePaths h h.PackagesInContentDir w1
    let u := UnlinkPackages h n.1 n.2
    let SyncOperation := Create EOperation.Sync
    let w2 := DisplayInProgressNotification h (h.GetInProgressString SyncOperation.Kind) u.2
    let e := Execute h SyncOperation [] EConcurrency.Asynchronous false w2
    let w3 := OnSourceControlOperationComplete h SyncOperation e.1 e.2
    ReloadPackages h u.1 w3
  else
    let w2 := w1.emit
      (Event.MessageLogWarning "GitSourceControl" "Save All Assets before attempting to Sync!")
    w2.emit (Event.MessageLogNotify "GitSourceControl")

/-- The `else` branch shared by the three handlers: the warning that an operation is in
progress, and its `Notify`. -/
def WarnInProgress (w : World) : World :=
  let w1 := w.emit
    (Event.MessageLogWarning "LogSourceControl" "Source control operation already in progress")
  w1.emit (Event.MessageLogNotify "LogSourceControl")

/-- `FGitSourceControlMenu::SyncClicked`. -/
def SyncClicked (h : Host) (w : World) : World :=
  if !w.IsValid then
    UnlinkSyncAndReloadPackages h w
  else
    WarnInProgress w

/-- `FGitSourceControlMenu::PushClicked`. -/
def PushClicked (h : Host) (w : World) : World :=
  if !w.IsValid then
    let PushOperation := Create EOperation.GitPush
    let e := Execute h PushOperation [] EConcurrency.Asynchronous true w
    if e.1 = ECommandResult.Succeeded then
      DisplayInProgressNotification h (h.GetInProgressString PushOperation.Kind) e.2
    else
      DisplayFailureNotification h (h.GetName PushOperation.Kind) e.2
  else
    WarnInProgress w

/-- `FGitSourceControlMenu::RefreshClicked`. -/
def RefreshClicked (h : Host) (w : World) : World :=
  if !w.IsValid then
    let RefreshOperation : FSourceControlOperation :=
      { Create EOperation.UpdateStatus with bCheckingAllFiles := true, bGetOpenedOnly := true }
    let e := Execute h RefreshOperation [] EConcurrency.Asynchronous true w
    if e.1 = ECommandResult.Succeeded then
      DisplayInProgressNotification h (h.GetInProgressString RefreshOperation.Kind) e.2
    else
      DisplayFailureNotification h (h.GetName RefreshOperation.Kind) e.2
  else
    WarnInProgress w

/-! ## Observations on traces and worlds -/

/-- A call of `Provider.Execute`. -/
def Event.isExecute : Event → Bool
  | Event.Execute _ _ _ _ => true
  | _ => false

/-- A call that saves, unlinks, reloads or unloads packages. -/
def Event.touchesPackage : Event → Bool
  | Event.SaveDirtyPackages => true
  | Event.FlushAsyncLoading => true
  | Event.FullyLoad _ => true
  | Event.ResetLoaders _ => true
  | Event.PackageToolsReloadPackages _ => true
  | Event.PackageToolsUnloadPackages _ => true
  | _ => false

/-- A call that unlinks a package (`FlushAsyncLoading`, `FullyLoad`, `ResetLoaders`). -/
def Event.isUnlink : Event → Bool
  | Event.FlushAsyncLoading => true
  | Event.FullyLoad _ => true
  | Event.ResetLoaders _ => true
  | _ => false

/-- The package whose loaders a call resets. -/
def Event.resetLoadersPackage : Event → Option UPackage
  | Event.ResetLoaders p => some p
  | _ => none

/-- A call of `PackageTools::ReloadPackages` or `PackageTools::UnloadPackages`. -/
def Event.isPackageTools : Event → Bool
  | Event.PackageToolsReloadPackages _ => true
  | Event.PackageToolsUnloadPackages _ => true
  | _ => false

/-- An error written to a message log. -/
def Event.isMessageLogError : Event → Bool
  | Event.MessageLogError _ _ => true
  | _ => false

/-- A call of `AddNotification`. -/
def Event.isAddNotification : Event → Bool
  | Event.AddNotification _ => true
  | _ => false

/-- A call of `ExpireAndFadeout`. -/
def Event.isExpireAndFadeout : Event → Bool
  | Event.ExpireAndFadeout _ => true
  | _ => false

/-- A warning written to a message log. -/
def Event.isWarning : Event → Bool
  | Event.MessageLogWarning _ _ => true
  | _ => false

/-- An info line written to a message log. -/
def Event.isMessageLogInfo : Event → Bool
  | Event.MessageLogInfo _ _ => true
  | _ => false

/-- An in-progress item that is still shown: pending and not expired. -/
def SNotificationItem.isLiveInProgress (n : SNotificationItem) : Bool :=
  n.CompletionState == ECompletionState.CS_Pending && !n.bExpired

/-- Number of in-progress items that were added and have not expired. -/
def World.liveInProgress (w : World) : Nat :=
  (w.Notifications.filter SNotificationItem.isLiveInProgress).length

/-- One call the editor or the provider makes into the menu. -/
inductive Call where
  | Push (h : Host)
  | Sync (h : Host)
  | Refresh (h : Host)
  | Complete (h : Host) (InOperation : FSourceControlOperation) (InResult : ECommandResult)

/-- Run one call. -/
def Call.run : Call → World → World
  | Call.Push h, w => PushClicked h w
  | Call.Sync h, w => SyncClicked h w
  | Call.Refresh h, w => RefreshClicked h w
  | Call.Complete h InOperation InResult, w => OnSourceControlOperationComplete h InOperation InResult w

/-- Run a sequence of calls, first to last. -/
def runCalls (cs : List Call) (w : World) : World :=
  cs.foldl (fun w c => c.run w) w

/-- The text of the notification a call of `AddNotification` asks for. -/
def Event.notificationText : Event → Option String
  | Event.AddNotification Info => some Info.Text
  | _ => none

/-- The operation a call of `Execute` is for. -/
def Event.executeOperation : Event → Option FSourceControlOperation
  | Event.Execute Operation _ _ _ => some Operation
  | _ => none

/-- The operation `RefreshClicked` builds: an `FUpdateStatus` with both flags set. -/
def RefreshOperation : FSourceControlOperation :=
  { Kind := EOperation.UpdateStatus, bCheckingAllFiles := true, bGetOpenedOnly := true }

/-! ## What a call did, as a relation between the worlds before and after -/

/-- What the three handlers do while an operation is in flight, from world `w` to world `w2`:
the warning and its `Notify` and no other call, no item added, the handle as it was. -/
def RejectedInProgress (w w2 : World) : Prop :=
  emitted w w2 =
      [Event.MessageLogWarning "LogSourceControl" "Source control operation already in progress",
        Event.MessageLogNotify "LogSourceControl"] ∧
    (emitted w w2).all (fun e => !e.isExecute && !e.touchesPackage && !e.isAddNotification) = true ∧
    (emitted w w2).filter Event.isWarning =
      [Event.MessageLogWarning "LogSourceControl" "Source control operation already in progress"] ∧
    w2.Notifications = w.Notifications ∧
    w2.OperationInProgressNotification = w.OperationInProgressNotification

/-- What `UnlinkSyncAndReloadPackages` does when the sync is refused, from world `w` to world
`w2`: after the save prompt, the warning and its `Notify` and no other call; no package is
unlinked, reloaded or unloaded, `Execute` is not called, no notification is asked for, no item
is added and the handle is as it was. -/
def RefusedUnsaved (w w2 : World) : Prop :=
  emitted w w2 =
      [Event.SaveDirtyPackages,
        Event.MessageLogWarning "GitSourceControl" "Save All Assets before attempting to Sync!",
        Event.MessageLogNotify "GitSourceControl"] ∧
    (emitted w w2).all
        (fun e => !e.isUnlink && !e.isPackageTools && !e.isExecute && !e.isAddNotification) = true ∧
    (emitted w w2).filter Event.isWarning =
      [Event.MessageLogWarning "GitSourceControl" "Save All Assets before attempting to Sync!"] ∧
    w2.Notifications = w.Notifications ∧
    w2.OperationInProgressNotification = w.OperationInProgressNotification

/-- What `PushClicked` and `RefreshClicked` do for the operation `Op` when no operation is in
flight, from world `w` to world `w2`: one call of `Execute`, asynchronous and with the
completion delegate; then the in-progress notification if `Execute` answered `Succeeded` and
the failure notification if not, so that the handle is valid afterwards exactly when `Execute`
answered `Succeeded` and the notification manager returned an item. -/
def Launched (h : Host) (Op : FSourceControlOperation) (w w2 : World) : Prop :=
  (emitted w w2).filter Event.isExecute =
      [Event.Execute Op [] EConcurrency.Asynchronous true] ∧
    (emitted w w2).head? = some (Event.Execute Op [] EConcurrency.Asynchronous true) ∧
    (emitted w w2).filterMap Event.notificationText =
      [if h.ExecuteResult Op = ECommandResult.Succeeded then h.GetInProgressString Op.Kind
        else "Error: " ++ h.GetName Op.Kind ++ " operation failed!"] ∧
    (emitted w w2).filter Event.isMessageLogInfo =
      (if h.ExecuteResult Op = ECommandResult.Succeeded then []
        else [Event.MessageLogInfo "LogSourceControl"
          ("Error: " ++ h.GetName Op.Kind ++ " operation failed!")]) ∧
    (w2.IsValid = true ↔
      (h.ExecuteResult Op = ECommandResult.Succeeded ∧ h.bAddNotificationReturnsItem = true)) ∧
    w2.liveInProgress = w.liveInProgress + (if w2.IsValid then 1 else 0)

/-- The handle and the in-progress items agree: with an invalid handle no in-progress item is
live, and with a valid handle exactly one is, the one the handle refers to. -/
def InProgressInvariant (w : World) : Prop :=
  match w.OperationInProgressNotification with
  | none => w.liveInProgress = 0
  | some i =>
    w.liveInProgress = 1 ∧ ∃ x, w.Notifications[i]? = some x ∧ x.isLiveInProgress = true

/-! ## Sample inputs -/

/-- A host in which everything succeeds: two packages in the content directory, both
loaded, one of which is gone after the sync. -/
def sampleHost : Host where
  ExecuteResult := fun _ => ECommandResult.Succeeded
  bAddNotificationReturnsItem := true
  GetName := fun k =>
    match k with
    | EOperation.GitPush => "Push"
    | EOperation.Sync => "Sync"
    | EOperation.UpdateStatus => "UpdateStatus"
  GetInProgressString := fun k =>
    match k with
    | EOperation.GitPush => "Pushing..."
    | EOperation.Sync => "Syncing..."
    | EOperation.UpdateStatus => "Updating..."
  bSaveDirtyPackages := true
  DirtyWorldPackages := []
  DirtyContentPackages := []
  PackagesInContentDir := ["A", "B"]
  TryConvertFilenameToLongPackageName := fun Path => Except.ok Path
  FindPackage := fun Name => some { Name := Name, bContainsMap := false, bFullyLoaded := true }
  MapPackageExtension := ".umap"
  AssetPackageExtension := ".uasset"
  LongPackageNameToFilename := fun Name Ext => Name ++ Ext
  FileExists := fun File => File == "A.uasset"

/-- The host `sampleHost` with a provider that answers `Failed`. -/
def failedHost : Host :=
  { sampleHost with ExecuteResult := fun _ => ECommandResult.Failed }

/-- The host `sampleHost` when one content package is still dirty after the save prompt. -/
def unsavedHost : Host :=
  { sampleHost with
    DirtyContentPackages := [{ Name := "C", bContainsMap := false, bFullyLoaded := true }] }

/-- The host `sampleHost` with the files "M.umap", "X.umap", "A.uasset" and "N.uasset" on disk
after the sync. -/
def mapHost : Host :=
  { sampleHost with
    FileExists := fun File => ["M.umap", "X.umap", "A.uasset", "N.uasset"].contains File }

/-- A world with no operation in flight, the LevelEditor module loaded and nothing registered. -/
def idleWorld : World where
  ViewMenuExtenderHandle := 0
  OperationInProgressNotification := none
  LevelEditorMenuExtenders := some []
  Notifications := []
  Trace := []

/-- The world `idleWorld` after a push that the provider accepted: one operation in flight. -/
def busyWorld : World :=
  PushClicked sampleHost idleWorld

/-- A world where two extenders of other plugins are registered already. -/
def extendedWorld : World :=
  { idleWorld with
    LevelEditorMenuExtenders := some [{ Handle := 5, Target := "A" }, { Handle := 6, Target := "B" }] }

/-! ## Basic facts -/

theorem emitted_of_append {w w2 : World} {l : List Event} (h : w2.Trace = w.Trace ++ l) :
    emitted w w2 = l := by
  simp [emitted, h]

theorem length_modifyAt {α : Type} (f : α → α) (i : Nat) (l : List α) :
    (modifyAt f i l).length = l.length := by
  induction l generalizing i with
  | nil => simp [modifyAt]
  | cons x xs ih =>
    cases i with
    | zero => simp [modifyAt]
    | succ i => simp [modifyAt, ih]

theorem WarnInProgress_rejected (w : World) : RejectedInProgress w (WarnInProgress w) := by
  have ht : (WarnInProgress w).Trace = w.Trace ++
      [Event.MessageLogWarning "LogSourceControl" "Source control operation already in progress",
        Event.MessageLogNotify "LogSourceControl"] := by
    simp [WarnInProgress, World.emit]
  refine ⟨emitted_of_append ht, ?_, ?_, ?_, ?_⟩
  · rw [emitted_of_append ht]; rfl
  · rw [emitted_of_append ht]; rfl
  · simp [WarnInProgress, World.emit]
  · simp [WarnInProgress, World.emit]

theorem AddNotification_Trace (h : Host) (Info : FNotificationInfo) (w : World) :
    (AddNotification h Info w).2.Trace = w.Trace ++ [Event.AddNotification Info] := by
  unfold AddNotification
  split <;> simp [World.emit]

theorem AddNotification_handle (h : Host) (Info : FNotificationInfo) (w : World) :
    (AddNotification h Info w).2.OperationInProgressNotification =
      w.OperationInProgressNotification := by
  unfold AddNotification
  split <;> simp [World.emit]

theorem AddNotification_Notifications (h : Host) (Info : FNotificationInfo) (w : World) :
    (AddNotification h Info w).2.Notifications =
      w.Notifications ++
        (if h.bAddNotificationReturnsItem then
          [{ Info := Info, CompletionState := ECompletionState.CS_None, bExpired := false }]
        else []) := by
  unfold AddNotification
  split <;> simp [World.emit]

theorem RemoveInProgressNotification_Trace (w : World) :
    (RemoveInProgressNotification w).Trace =
      w.Trace ++ w.OperationInProgressNotification.toList.map Event.ExpireAndFadeout := by
  unfold RemoveInProgressNotification
  cases hq : w.OperationInProgressNotification <;> simp [ExpireAndFadeout, World.emit]

theorem RemoveInProgressNotification_handle (w : World) :
    (RemoveInProgressNotification w).OperationInProgressNotification = none := by
  unfold RemoveInProgressNotification
  cases hq : w.OperationInProgressNotification <;> simp [hq]

theorem RemoveInProgressNotification_length (w : World) :
    (RemoveInProgressNotification w).Notifications.length = w.Notifications.length := by
  unfold RemoveInProgressNotification
  cases hq : w.OperationInProgressNotification <;>
    simp [ExpireAndFadeout, World.emit, length_modifyAt]

theorem DisplaySucessNotification_Trace (h : Host) (Name : String) (w : World) :
    (DisplaySucessNotification h Name w).Trace =
      w.Trace ++
        [Event.AddNotification
            { Text := SuccessText Name
              bFireAndForget := none
              ExpireDuration := none
              FadeOutDuration := none
              bUseSuccessFailIcons := some true
              Image := some "NotificationList.SuccessImage" },
          Event.MessageLogInfo "LogSourceControl" (SuccessText Name)] := by
  simp [DisplaySucessNotification, World.emit, AddNotification_Trace]

theorem DisplayFailureNotification_Trace (h : Host) (Name : String) (w : World) :
    (DisplayFailureNotification h Name w).Trace =
      w.Trace ++
        [Event.AddNotification
            { Text := FailureText Name
              bFireAndForget := none
              ExpireDuration := some 8000
              FadeOutDuration := none
              bUseSuccessFailIcons := none
              Image := none },
          Event.MessageLogInfo "LogSourceControl" (FailureText Name)] := by
  simp [DisplayFailureNotification, World.emit, AddNotification_Trace]

theorem DisplaySucessNotification_handle (h : Host) (Name : String) (w : World) :
    (DisplaySucessNotification h Name w).OperationInProgressNotification =
      w.OperationInProgressNotification := by
  simp [DisplaySucessNotification, World.emit, AddNotification_handle]

theorem DisplayFailureNotification_handle (h : Host) (Name : String) (w : World) :
    (DisplayFailureNotification h Name w).OperationInProgressNotification =
      w.OperationInProgressNotification := by
  simp [DisplayFailureNotification, World.emit, AddNotification_handle]

theorem SuccessText_ne_FailureText (Name : String) : SuccessText Name ≠ FailureText Name := by
  intro he
  have hd : (SuccessText Name).data.reverse = (FailureText Name).data.reverse := by rw [he]
  simp [SuccessText, FailureText, String.data_append] at hd

theorem OnSourceControlOperationComplete_Trace (h : Host) (InOperation : FSourceControlOperation)
    (InResult : ECommandResult) (w : World) :
    ∃ Info : FNotificationInfo,
      Info.Text =
          (if InResult = ECommandResult.Succeeded then SuccessText (h.GetName InOperation.Kind)
          else FailureText (h.GetName InOperation.Kind)) ∧
        (OnSourceControlOperationComplete h InOperation InResult w).Trace =
          w.Trace ++ w.OperationInProgressNotification.toList.map Event.ExpireAndFadeout ++
            [Event.AddNotification Info, Event.MessageLogInfo "LogSourceControl" Info.Text] ∧
        (OnSourceControlOperationComplete h InOperation InResult w).Notifications =
          (RemoveInProgressNotification w).Notifications ++
            (if h.bAddNotificationReturnsItem then
              [{ Info := Info, CompletionState := ECompletionState.CS_None, bExpired := false }]
            else []) := by
  unfold OnSourceControlOperationComplete
  by_cases hr : InResult = ECommandResult.Succeeded
  · refine ⟨{ Text := SuccessText (h.GetName InOperation.Kind)
              bFireAndForget := none
              ExpireDuration := none
              FadeOutDuration := none
              bUseSuccessFailIcons := some true
              Image := some "NotificationList.SuccessImage" }, ?_, ?_, ?_⟩
    · simp only [hr, if_true]
    · simp only [hr, if_true, DisplaySucessNotification_Trace,
        RemoveInProgressNotification_Trace]
    · simp [hr, DisplaySucessNotification, World.emit, AddNotification_Notifications]
  · refine ⟨{ Text := FailureText (h.GetName InOperation.Kind)
              bFireAndForget := none
              ExpireDuration := some 8000
              FadeOutDuration := none
              bUseSuccessFailIcons := none
              Image := none }, ?_, ?_, ?_⟩
    · simp only [hr, if_false]
    · simp only [hr, if_false, DisplayFailureNotification_Trace,
        RemoveInProgressNotification_Trace]
    · simp [hr, DisplayFailureNotification, World.emit, AddNotification_Notifications]

theorem OnSourceControlOperationComplete_handle (h : Host) (InOperation : FSourceControlOperation)
    (InResult : ECommandResult) (w : World) :
    (OnSourceControlOperationComplete h InOperation InResult w).OperationInProgressNotification =
      none := by
  unfold OnSourceControlOperationComplete
  split <;>
    simp [DisplaySucessNotification_handle, DisplayFailureNotification_handle,
      RemoveInProgressNotification_handle]

theorem length_filter_add_length_filter_not {α : Type} (p : α → Bool) (l : List α) :
    (l.filter p).length + (l.filter (fun x => !p x)).length = l.length := by
  induction l with
  | nil => simp
  | cons x xs ih =>
    cases hx : p x <;> simp [List.filter_cons, hx] <;> omega

theorem RemoveAll_eq_filter {α : Type} (p : α → Bool) (l acc : List α) :
    RemoveAll (fun x (s : List α) => if p x then (true, s ++ [x]) else (false, s)) l acc =
      (l.filter (fun x => !p x), acc ++ l.filter p) := by
  induction l generalizing acc with
  | nil => simp [RemoveAll]
  | cons x xs ih =>
    cases hp : p x <;> simp [RemoveAll, hp, ih]

theorem ReloadPackages_Trace (h : Host) (l : List UPackage) (w : World) :
    (ReloadPackages h l w).Trace =
      w.Trace ++
        [Event.UE_LOG "Reloading %d Packages..." l.length,
          Event.PackageToolsReloadPackages (l.filter (fun p => h.FileExists (PackageFilename h p))),
          Event.PackageToolsUnloadPackages
            (l.filter (fun p => !h.FileExists (PackageFilename h p)))] := by
  have hq := RemoveAll_eq_filter (fun p => !h.FileExists (PackageFilename h p)) l []
  simp only [Bool.not_not, List.nil_append] at hq
  simp only [ReloadPackages, World.emit]
  rw [hq]
  simp

theorem ReloadPackages_Notifications (h : Host) (l : List UPackage) (w : World) :
    (ReloadPackages h l w).Notifications = w.Notifications ∧
      (ReloadPackages h l w).OperationInProgressNotification =
        w.OperationInProgressNotification := by
  simp [ReloadPackages, World.emit]

theorem ConvertPackagePaths_foldl (h : Host) (paths : List String) (acc : List String × World) :
    ∃ l, (paths.foldl (ConvertPackagePathsBody h) acc).2.Trace = acc.2.Trace ++ l ∧
      (∀ e ∈ l, e.isMessageLogError = true) ∧
      (paths.foldl (ConvertPackagePathsBody h) acc).2.Notifications = acc.2.Notifications ∧
      (paths.foldl (ConvertPackagePathsBody h) acc).2.OperationInProgressNotification =
        acc.2.OperationInProgressNotification := by
  induction paths generalizing acc with
  | nil => exact ⟨[], by simp⟩
  | cons x xs ih =>
    obtain ⟨l, h1, h2, h3, h4⟩ := ih (ConvertPackagePathsBody h acc x)
    simp only [List.foldl_cons]
    cases hc : h.TryConvertFilenameToLongPackageName x with
    | ok name =>
      simp only [ConvertPackagePathsBody, hc] at h1 h3 h4 ⊢
      exact ⟨l, h1, h2, h3, h4⟩
    | error reason =>
      simp only [ConvertPackagePathsBody, hc, World.emit] at h1 h3 h4 ⊢
      refine ⟨Event.MessageLogError "GitSourceControl" reason :: l, ?_, ?_, h3, h4⟩
      · simpa using h1
      · intro e he
        rcases List.mem_cons.1 he with he | he
        · subst he; rfl
        · exact h2 e he

theorem UnlinkPackages_foldl (h : Host) (names : List String) (acc : List UPackage × World) :
    (names.foldl (UnlinkPackagesBody h) acc).1 = acc.1 ++ names.filterMap h.FindPackage ∧
      ∃ l, (names.foldl (UnlinkPackagesBody h) acc).2.Trace = acc.2.Trace ++ l ∧
        l.filterMap Event.resetLoadersPackage = names.filterMap h.FindPackage ∧
        (∀ e ∈ l, e.isUnlink = true) ∧
        (names.foldl (UnlinkPackagesBody h) acc).2.Notifications = acc.2.Notifications ∧
        (names.foldl (UnlinkPackagesBody h) acc).2.OperationInProgressNotification =
          acc.2.OperationInProgressNotification := by
  induction names generalizing acc with
  | nil => exact ⟨by simp, [], by simp⟩
  | cons x xs ih =>
    obtain ⟨h0, l, h1, h2, h3, h4, h5⟩ := ih (UnlinkPackagesBody h acc x)
    simp only [List.foldl_cons]
    cases hc : h.FindPackage x with
    | none =>
      simp only [UnlinkPackagesBody, hc] at h0 h1 h4 h5 ⊢
      exact ⟨by simpa [hc] using h0, l, h1, by simpa [hc] using h2, h3, h4, h5⟩
    | some p =>
      cases hf : (p.bFullyLoaded || acc.1.contains p)
      · simp only [UnlinkPackagesBody, hc, hf, World.emit] at h0 h1 h4 h5 ⊢
        refine ⟨by simpa [hc] using h0,
          Event.FlushAsyncLoading :: Event.FullyLoad p :: Event.ResetLoaders p :: l,
          by simpa using h1, ?_, ?_, by simpa using h4, by simpa using h5⟩
        · simp [Event.resetLoadersPackage, hc, h2]
        · intro e he
          simp only [List.mem_cons] at he
          rcases he with he | he | he | he
          · subst he; rfl
          · subst he; rfl
          · subst he; rfl
          · exact h3 e he
      · simp only [UnlinkPackagesBody, hc, hf, World.emit] at h0 h1 h4 h5 ⊢
        refine ⟨by simpa [hc] using h0, Event.ResetLoaders p :: l,
          by simpa using h1, ?_, ?_, by simpa using h4, by simpa using h5⟩
        · simp [Event.resetLoadersPackage, hc, h2]
        · intro e he
          simp only [List.mem_cons] at he
          rcases he with he | he
          · subst he; rfl
          · exact h3 e he

theorem UnlinkPackages_spec (h : Host) (names : List String) (w : World) :
    (UnlinkPackages h names w).1 = names.filterMap h.FindPackage ∧
      ∃ l, (UnlinkPackages h names w).2.Trace = w.Trace ++ l ∧
        l.filterMap Event.resetLoadersPackage = names.filterMap h.FindPackage ∧
        (∀ e ∈ l, e.isExecute = false ∧ e.isPackageTools = false ∧
          e.isAddNotification = false ∧ e.isExpireAndFadeout = false) ∧
        (UnlinkPackages h names w).2.Notifications = w.Notifications ∧
        (UnlinkPackages h names w).2.OperationInProgressNotification =
          w.OperationInProgressNotification := by
  unfold UnlinkPackages
  by_cases hn : names.length > 0
  · obtain ⟨h0, l, h1, h2, h3, h4, h5⟩ := UnlinkPackages_foldl h names ([], w)
    simp only [hn, if_true, World.emit]
    refine ⟨by simpa using h0, l ++ [Event.UE_LOG "Reseted Loader for %d Packages"
      (names.foldl (UnlinkPackagesBody h) ([], w)).1.length], ?_, ?_, ?_, h4, h5⟩
    · simp [h1]
    · simp [List.filterMap_append, h2, Event.resetLoadersPackage]
    · intro e he
      rcases List.mem_append.1 he with he | he
      · have hu := h3 e he
        cases e <;> simp_all [Event.isUnlink, Event.isExecute, Event.isPackageTools,
          Event.isAddNotification, Event.isExpireAndFadeout]
      · simp only [List.mem_singleton] at he
        subst he
        simp [Event.isExecute, Event.isPackageTools, Event.isAddNotification,
          Event.isExpireAndFadeout]
  · have hnil : names = [] := by
      cases names with
      | nil => rfl
      | cons x xs => simp at hn
    subst hnil
    exact ⟨by simp, [], by simp⟩

theorem modifyAt_length_append {α : Type} (f : α → α) (l : List α) (x : α) :
    modifyAt f l.length (l ++ [x]) = l ++ [f x] := by
  induction l with
  | nil => simp [modifyAt]
  | cons y ys ih => simp [modifyAt, ih]

theorem DisplayInProgressNotification_of_valid (h : Host) (Text : String) (w : World)
    (hv : w.IsValid = true) : DisplayInProgressNotification h Text w = w := by
  simp [DisplayInProgressNotification, hv]

theorem DisplayInProgressNotification_of_invalid (h : Host) (Text : String) (w : World)
    (hv : w.OperationInProgressNotification = none) :
    DisplayInProgressNotification h Text w =
      if h.bAddNotificationReturnsItem then
        { w with
          OperationInProgressNotification := some w.Notifications.length,
          Notifications := w.Notifications ++
            [{ Info := InProgressInfo Text, CompletionState := ECompletionState.CS_Pending,
               bExpired := false }],
          Trace := w.Trace ++
            [Event.AddNotification (InProgressInfo Text),
              Event.SetCompletionState w.Notifications.length ECompletionState.CS_Pending] }
      else
        { w with Trace := w.Trace ++ [Event.AddNotification (InProgressInfo Text)] } := by
  cases hb : h.bAddNotificationReturnsItem
  · simp [DisplayInProgressNotification, World.IsValid, hv, AddNotification, hb, World.emit,
      InProgressInfo]
  · simp [DisplayInProgressNotification, World.IsValid, hv, AddNotification, hb, World.emit,
      InProgressInfo, SetCompletionState, modifyAt_length_append]

theorem DisplayInProgressNotification_Trace (h : Host) (Text : String) (w : World) :
    ∃ l, (DisplayInProgressNotification h Text w).Trace = w.Trace ++ l ∧
      (∀ e ∈ l, e.isExecute = false ∧ e.isPackageTools = false ∧ e.isUnlink = false) ∧
      (w.IsValid = false → Event.AddNotification (InProgressInfo Text) ∈ l) := by
  cases hv : w.OperationInProgressNotification with
  | some i =>
    have hv2 : w.IsValid = true := by simp [World.IsValid, hv]
    rw [DisplayInProgressNotification_of_valid h Text w hv2]
    exact ⟨[], by simp, by simp, by simp [hv2]⟩
  | none =>
    rw [DisplayInProgressNotification_of_invalid h Text w hv]
    cases hb : h.bAddNotificationReturnsItem
    · exact ⟨[Event.AddNotification (InProgressInfo Text)], by simp,
        by simp [Event.isExecute, Event.isPackageTools, Event.isUnlink], by simp⟩
    · exact ⟨[Event.AddNotification (InProgressInfo Text),
          Event.SetCompletionState w.Notifications.length ECompletionState.CS_Pending],
        by simp, by simp [Event.isExecute, Event.isPackageTools, Event.isUnlink], by simp⟩

theorem OnSourceControlOperationComplete_Trace_free (h : Host)
    (InOperation : FSourceControlOperation) (InResult : ECommandResult) (w : World) :
    ∃ l, (OnSourceControlOperationComplete h InOperation InResult w).Trace = w.Trace ++ l ∧
      (∀ e ∈ l, e.isExecute = false ∧ e.isPackageTools = false ∧ e.isUnlink = false) := by
  obtain ⟨Info, _, ht, _⟩ := OnSourceControlOperationComplete_Trace h InOperation InResult w
  rw [List.append_assoc] at ht
  refine ⟨_, ht, ?_⟩
  intro e he
  cases hq : w.OperationInProgressNotification with
  | none =>
    simp only [hq, Option.toList, List.map_nil, List.nil_append, List.mem_cons,
      List.mem_singleton, List.not_mem_nil, or_false] at he
    rcases he with he | he <;> subst he <;>
      simp [Event.isExecute, Event.isPackageTools, Event.isUnlink]
  | some i =>
    simp only [hq, Option.toList, List.map_cons, List.map_nil, List.cons_append,
      List.nil_append, List.mem_cons, List.mem_singleton, List.not_mem_nil, or_false] at he
    rcases he with he | he | he <;> subst he <;>
      simp [Event.isExecute, Event.isPackageTools, Event.isUnlink]

theorem Event.of_isMessageLogError (e : Event) (he : e.isMessageLogError = true) :
    e.isExecute = false ∧ e.isPackageTools = false ∧ e.isUnlink = false ∧
      e.resetLoadersPackage = none ∧ e.isAddNotification = false ∧
      e.isExpireAndFadeout = false := by
  cases e <;>
    simp [Event.isMessageLogError, Event.isExecute, Event.isPackageTools, Event.isUnlink,
      Event.resetLoadersPackage, Event.isAddNotification, Event.isExpireAndFadeout] at he ⊢

theorem Event.resetLoadersPackage_of_not_isUnlink (e : Event) (he : e.isUnlink = false) :
    e.resetLoadersPackage = none := by
  cases e <;> simp [Event.isUnlink, Event.resetLoadersPackage] at he ⊢

theorem OkToExit_iff (h : Host) :
    OkToExit h = true ↔
      (h.bSaveDirtyPackages = true ∧ h.DirtyWorldPackages ++ h.DirtyContentPackages = []) := by
  unfold OkToExit
  cases h.bSaveDirtyPackages <;> simp

theorem UnlinkSyncAndReloadPackages_refused (h : Host) (w : World) (hno : OkToExit h = false) :
    RefusedUnsaved w (UnlinkSyncAndReloadPackages h w) := by
  have ht : (UnlinkSyncAndReloadPackages h w).Trace = w.Trace ++
      [Event.SaveDirtyPackages,
        Event.MessageLogWarning "GitSourceControl" "Save All Assets before attempting to Sync!",
        Event.MessageLogNotify "GitSourceControl"] := by
    simp [UnlinkSyncAndReloadPackages, hno, World.emit]
  refine ⟨emitted_of_append ht, ?_, ?_, ?_, ?_⟩
  · rw [emitted_of_append ht]; rfl
  · rw [emitted_of_append ht]; rfl
  · simp [UnlinkSyncAndReloadPackages, hno, World.emit]
  · simp [UnlinkSyncAndReloadPackages, hno, World.emit]

theorem UnlinkSyncAndReloadPackages_ok (h : Host) (w : World) (hok : OkToExit h = true) :
    ∃ pre mid w3,
      UnlinkSyncAndReloadPackages h w =
          ReloadPackages h
            ((ConvertPackagePaths h h.PackagesInContentDir (w.emit Event.SaveDirtyPackages)).1.filterMap
              h.FindPackage) w3 ∧
        w3.Trace = w.Trace ++
          (pre ++ Event.Execute (Create EOperation.Sync) [] EConcurrency.Asynchronous false :: mid) ∧
        pre.filterMap Event.resetLoadersPackage =
          (ConvertPackagePaths h h.PackagesInContentDir (w.emit Event.SaveDirtyPackages)).1.filterMap
            h.FindPackage ∧
        (∀ e ∈ pre, e.isExecute = false ∧ e.isPackageTools = false) ∧
        (∀ e ∈ mid, e.isExecute = false ∧ e.isPackageTools = false ∧ e.isUnlink = false) ∧
        (w.IsValid = false →
          Event.AddNotification (InProgressInfo (h.GetInProgressString EOperation.Sync)) ∈ pre) ∧
        w3.OperationInProgressNotification = none := by
  have heq : UnlinkSyncAndReloadPackages h w =
      ReloadPackages h
        (UnlinkPackages h
          (ConvertPackagePaths h h.PackagesInContentDir (w.emit Event.SaveDirtyPackages)).1
          (ConvertPackagePaths h h.PackagesInContentDir (w.emit Event.SaveDirtyPackages)).2).1
        (OnSourceControlOperationComplete h (Create EOperation.Sync)
          (h.ExecuteResult (Create EOperation.Sync))
          ((DisplayInProgressNotification h (h.GetInProgressString EOperation.Sync)
            (UnlinkPackages h
              (ConvertPackagePaths h h.PackagesInContentDir (w.emit Event.SaveDirtyPackages)).1
              (ConvertPackagePaths h h.PackagesInContentDir
                (w.emit Event.SaveDirtyPackages)).2).2).emit
            (Event.Execute (Create EOperation.Sync) [] EConcurrency.Asynchronous false))) := by
    simp only [UnlinkSyncAndReloadPackages, hok, if_true, Execute]
    rfl
  rw [heq]
  clear heq
  obtain ⟨errs, hc1, hc2, _, hc4⟩ :=
    ConvertPackagePaths_foldl h h.PackagesInContentDir ([], w.emit Event.SaveDirtyPackages)
  have hc1b : (ConvertPackagePaths h h.PackagesInContentDir
      (w.emit Event.SaveDirtyPackages)).2.Trace = w.Trace ++ [Event.SaveDirtyPackages] ++ errs := by
    simpa [ConvertPackagePaths, World.emit] using hc1
  have hc4b : (ConvertPackagePaths h h.PackagesInContentDir
      (w.emit Event.SaveDirtyPackages)).2.OperationInProgressNotification =
      w.OperationInProgressNotification := by
    simpa [ConvertPackagePaths, World.emit] using hc4
  generalize ConvertPackagePaths h h.PackagesInContentDir (w.emit Event.SaveDirtyPackages) = c
    at hc1b hc4b ⊢
  obtain ⟨hu0, ul, hu1, hu2, hu3, _, hu5⟩ := UnlinkPackages_spec h c.1 c.2
  generalize UnlinkPackages h c.1 c.2 = u at hu0 hu1 hu5 ⊢
  obtain ⟨dl, hd1, hd2, hd3⟩ :=
    DisplayInProgressNotification_Trace h (h.GetInProgressString EOperation.Sync) u.2
  obtain ⟨ml, hm1, hm2⟩ :=
    OnSourceControlOperationComplete_Trace_free h (Create EOperation.Sync)
      (h.ExecuteResult (Create EOperation.Sync))
      ((DisplayInProgressNotification h (h.GetInProgressString EOperation.Sync) u.2).emit
        (Event.Execute (Create EOperation.Sync) [] EConcurrency.Asynchronous false))
  refine ⟨Event.SaveDirtyPackages :: (errs ++ ul ++ dl), ml,
    OnSourceControlOperationComplete h (Create EOperation.Sync)
      (h.ExecuteResult (Create EOperation.Sync))
      ((DisplayInProgressNotification h (h.GetInProgressString EOperation.Sync) u.2).emit
        (Event.Execute (Create EOperation.Sync) [] EConcurrency.Asynchronous false)),
    ?_, ?_, ?_, ?_, hm2, ?_, ?_⟩
  · rw [← hu0]
  · rw [hm1]
    simp only [World.emit]
    rw [hd1, hu1, hc1b]
    simp
  · have he : errs.filterMap Event.resetLoadersPackage = [] := by
      rw [List.filterMap_eq_nil_iff]
      intro e he
      exact (Event.of_isMessageLogError e (hc2 e he)).2.2.2.1
    have hdl : dl.filterMap Event.resetLoadersPackage = [] := by
      rw [List.filterMap_eq_nil_iff]
      intro e he
      exact Event.resetLoadersPackage_of_not_isUnlink e (hd2 e he).2.2
    simp [List.filterMap_cons, List.filterMap_append, Event.resetLoadersPackage, he, hdl, hu2]
  · intro e he
    simp only [List.mem_cons, List.mem_append] at he
    rcases he with he | (he | he) | he
    · subst he; simp [Event.isExecute, Event.isPackageTools]
    · exact ⟨(Event.of_isMessageLogError e (hc2 e he)).1,
        (Event.of_isMessageLogError e (hc2 e he)).2.1⟩
    · exact ⟨(hu3 e he).1, (hu3 e he).2.1⟩
    · exact ⟨(hd2 e he).1, (hd2 e he).2.1⟩
  · intro hv
    have hv2 : u.2.IsValid = false := by
      simp only [World.IsValid] at hv ⊢
      rw [hu5, hc4b]
      exact hv
    have := hd3 hv2
    simp [this]
  · exact OnSourceControlOperationComplete_handle _ _ _ _

theorem DisplayFailureNotification_liveInProgress (h : Host) (Name : String) (w : World) :
    (DisplayFailureNotification h Name w).liveInProgress = w.liveInProgress := by
  cases hb : h.bAddNotificationReturnsItem <;>
    simp [DisplayFailureNotification, World.emit, AddNotification, hb, World.liveInProgress,
      List.filter_append, SNotificationItem.isLiveInProgress]

theorem Launched_of_invalid (h : Host) (Op : FSourceControlOperation) (w : World)
    (hv : w.OperationInProgressNotification = none) :
    Launched h Op w
      (if (Execute h Op [] EConcurrency.Asynchronous true w).1 = ECommandResult.Succeeded then
        DisplayInProgressNotification h (h.GetInProgressString Op.Kind)
          (Execute h Op [] EConcurrency.Asynchronous true w).2
      else
        DisplayFailureNotification h (h.GetName Op.Kind)
          (Execute h Op [] EConcurrency.Asynchronous true w).2) := by
  have hv2 : (w.emit (Event.Execute Op [] EConcurrency.Asynchronous true)).OperationInProgressNotification
      = none := by simpa [World.emit] using hv
  by_cases hr : h.ExecuteResult Op = ECommandResult.Succeeded
  · simp only [Execute, hr, if_true]
    rw [DisplayInProgressNotification_of_invalid h _ _ hv2]
    cases hb : h.bAddNotificationReturnsItem
    · have ht : ∀ w2 : World, w2 = { w.emit (Event.Execute Op [] EConcurrency.Asynchronous true) with
          Trace := (w.emit (Event.Execute Op [] EConcurrency.Asynchronous true)).Trace ++
            [Event.AddNotification (InProgressInfo (h.GetInProgressString Op.Kind))] } →
          Launched h Op w w2 := by
        intro w2 hw2
        have hT : w2.Trace = w.Trace ++ [Event.Execute Op [] EConcurrency.Asynchronous true,
            Event.AddNotification (InProgressInfo (h.GetInProgressString Op.Kind))] := by
          simp [hw2, World.emit]
        refine ⟨?_, ?_, ?_, ?_, ?_, ?_⟩
        · rw [emitted_of_append hT]; simp [Event.isExecute]
        · rw [emitted_of_append hT]; simp
        · rw [emitted_of_append hT]; simp [Event.notificationText, hr, InProgressInfo]
        · rw [emitted_of_append hT]; simp [Event.isMessageLogInfo, hr]
        · simp [hw2, World.IsValid, World.emit, hv, hb]
        · simp [hw2, World.IsValid, World.emit, hv, World.liveInProgress]
      exact ht _ (by simp)
    · have ht : ∀ w2 : World, w2 = { w.emit (Event.Execute Op [] EConcurrency.Asynchronous true) with
          OperationInProgressNotification := some w.Notifications.length,
          Notifications := w.Notifications ++
            [{ Info := InProgressInfo (h.GetInProgressString Op.Kind),
               CompletionState := ECompletionState.CS_Pending, bExpired := false }],
          Trace := (w.emit (Event.Execute Op [] EConcurrency.Asynchronous true)).Trace ++
            [Event.AddNotification (InProgressInfo (h.GetInProgressString Op.Kind)),
              Event.SetCompletionState w.Notifications.length ECompletionState.CS_Pending] } →
          Launched h Op w w2 := by
        intro w2 hw2
        have hT : w2.Trace = w.Trace ++ [Event.Execute Op [] EConcurrency.Asynchronous true,
            Event.AddNotification (InProgressInfo (h.GetInProgressString Op.Kind)),
            Event.SetCompletionState w.Notifications.length ECompletionState.CS_Pending] := by
          simp [hw2, World.emit]
        refine ⟨?_, ?_, ?_, ?_, ?_, ?_⟩
        · rw [emitted_of_append hT]; simp [Event.isExecute]
        · rw [emitted_of_append hT]; simp
        · rw [emitted_of_append hT]; simp [Event.notificationText, hr, InProgressInfo]
        · rw [emitted_of_append hT]; simp [Event.isMessageLogInfo, hr]
        · simp [hw2, World.IsValid, hr, hb]
        · simp [hw2, World.IsValid, World.liveInProgress, List.filter_append,
            SNotificationItem.isLiveInProgress]
      exact ht _ (by simp [World.emit])
  · simp only [Execute, hr, if_false]
    have hT : (DisplayFailureNotification h (h.GetName Op.Kind)
        (w.emit (Event.Execute Op [] EConcurrency.Asynchronous true))).Trace =
        w.Trace ++ [Event.Execute Op [] EConcurrency.Asynchronous true,
          Event.AddNotification
            { Text := FailureText (h.GetName Op.Kind)
              bFireAndForget := none
              ExpireDuration := some 8000
              FadeOutDuration := none
              bUseSuccessFailIcons := none
              Image := none },
          Event.MessageLogInfo "LogSourceControl" (FailureText (h.GetName Op.Kind))] := by
      rw [DisplayFailureNotification_Trace]
      simp [World.emit]
    have hH := DisplayFailureNotification_handle h (h.GetName Op.Kind)
      (w.emit (Event.Execute Op [] EConcurrency.Asynchronous true))
    rw [hv2] at hH
    refine ⟨?_, ?_, ?_, ?_, ?_, ?_⟩
    · rw [emitted_of_append hT]; simp [Event.isExecute]
    · rw [emitted_of_append hT]; simp
    · rw [emitted_of_append hT]; simp [Event.notificationText, hr, FailureText]
    · rw [emitted_of_append hT]; simp [Event.isMessageLogInfo, hr, FailureText]
    · simp [World.IsValid, hH, hr]
    · rw [DisplayFailureNotification_liveInProgress]
      simp only [World.IsValid, hH]
      simp [World.liveInProgress, World.emit]

theorem PushClicked_of_invalid (h : Host) (w : World)
    (hv : w.OperationInProgressNotification = none) :
    Launched h (Create EOperation.GitPush) w (PushClicked h w) := by
  have hl := Launched_of_invalid h (Create EOperation.GitPush) w hv
  simpa [PushClicked, World.IsValid, hv] using hl

theorem RefreshClicked_of_invalid (h : Host) (w : World)
    (hv : w.OperationInProgressNotification = none) :
    Launched h RefreshOperation w (RefreshClicked h w) := by
  have hl := Launched_of_invalid h RefreshOperation w hv
  simpa [RefreshClicked, World.IsValid, hv, RefreshOperation, Create] using hl

theorem InProgressInvariant_congr {w w2 : World} (hn : w2.Notifications = w.Notifications)
    (hh : w2.OperationInProgressNotification = w.OperationInProgressNotification)
    (hi : InProgressInvariant w) : InProgressInvariant w2 := by
  unfold InProgressInvariant at hi ⊢
  rw [hh]
  simpa [World.liveInProgress, hn] using hi

theorem InProgressInvariant_emit (w : World) (e : Event) (hi : InProgressInvariant w) :
    InProgressInvariant (w.emit e) :=
  InProgressInvariant_congr (by simp [World.emit]) (by simp [World.emit]) hi

theorem live_modifyAt_expire (l : List SNotificationItem) (i : Nat) (x : SNotificationItem)
    (hx : l[i]? = some x) (hl : x.isLiveInProgress = true) :
    ((modifyAt (fun n => { n with bExpired := true }) i l).filter
        SNotificationItem.isLiveInProgress).length + 1 =
      (l.filter SNotificationItem.isLiveInProgress).length := by
  induction l generalizing i with
  | nil => simp at hx
  | cons y ys ih =>
    cases i with
    | zero =>
      simp only [List.getElem?_cons_zero, Option.some.injEq] at hx
      subst hx
      have hl2 : SNotificationItem.isLiveInProgress
          { Info := y.Info, CompletionState := y.CompletionState, bExpired := true } = false := by
        simp [SNotificationItem.isLiveInProgress]
      simp [modifyAt, List.filter_cons, hl, hl2]
    | succ i =>
      simp only [List.getElem?_cons_succ] at hx
      have := ih i hx
      by_cases hy : y.isLiveInProgress = true
      · simp [modifyAt, List.filter_cons, hy]
        omega
      · simp [modifyAt, List.filter_cons, hy]
        omega

theorem InProgressInvariant_append_none {w w2 : World} (y : List SNotificationItem)
    (hy : ∀ n ∈ y, n.isLiveInProgress = false)
    (hn : w2.Notifications = w.Notifications ++ y)
    (hh : w2.OperationInProgressNotification = w.OperationInProgressNotification)
    (hi : InProgressInvariant w) : InProgressInvariant w2 := by
  have hf : y.filter SNotificationItem.isLiveInProgress = [] := by
    rw [List.filter_eq_nil_iff]
    intro n hn
    simp [hy n hn]
  unfold InProgressInvariant at hi ⊢
  rw [hh]
  cases hq : w.OperationInProgressNotification with
  | none =>
    rw [hq] at hi
    simpa [World.liveInProgress, hn, List.filter_append, hf] using hi
  | some i =>
    rw [hq] at hi
    obtain ⟨h1, x, hx, hl⟩ := hi
    refine ⟨by simpa [World.liveInProgress, hn, List.filter_append, hf] using h1, x, ?_, hl⟩
    have hlt : i < w.Notifications.length := by
      by_contra hge
      rw [List.getElem?_eq_none (by omega)] at hx
      simp at hx
    rw [hn, List.getElem?_append_left hlt]
    exact hx

theorem RemoveInProgressNotification_inv (w : World) (hi : InProgressInvariant w) :
    InProgressInvariant (RemoveInProgressNotification w) := by
  unfold InProgressInvariant
  rw [RemoveInProgressNotification_handle]
  unfold InProgressInvariant at hi
  cases hq : w.OperationInProgressNotification with
  | none =>
    rw [hq] at hi
    simpa [RemoveInProgressNotification, hq] using hi
  | some i =>
    rw [hq] at hi
    obtain ⟨h1, x, hx, hl⟩ := hi
    have := live_modifyAt_expire w.Notifications i x hx hl
    simp only [World.liveInProgress] at h1 ⊢
    simp only [RemoveInProgressNotification, hq, ExpireAndFadeout, World.emit]
    omega

theorem DisplayFailureNotification_inv (h : Host) (Name : String) (w : World)
    (hi : InProgressInvariant w) : InProgressInvariant (DisplayFailureNotification h Name w) := by
  refine InProgressInvariant_append_none _ ?_
    (by simp only [DisplayFailureNotification, World.emit]; exact AddNotification_Notifications _ _ _)
    (DisplayFailureNotification_handle h Name w) hi
  intro n hn
  split at hn
  · simp only [List.mem_singleton] at hn
    subst hn
    rfl
  · simp at hn

theorem DisplaySucessNotification_inv (h : Host) (Name : String) (w : World)
    (hi : InProgressInvariant w) : InProgressInvariant (DisplaySucessNotification h Name w) := by
  refine InProgressInvariant_append_none _ ?_
    (by simp only [DisplaySucessNotification, World.emit]; exact AddNotification_Notifications _ _ _)
    (DisplaySucessNotification_handle h Name w) hi
  intro n hn
  split at hn
  · simp only [List.mem_singleton] at hn
    subst hn
    rfl
  · simp at hn

theorem OnSourceControlOperationComplete_inv (h : Host) (InOperation : FSourceControlOperation)
    (InResult : ECommandResult) (w : World) (hi : InProgressInvariant w) :
    InProgressInvariant (OnSourceControlOperationComplete h InOperation InResult w) := by
  unfold OnSourceControlOperationComplete
  split
  · exact DisplaySucessNotification_inv _ _ _ (RemoveInProgressNotification_inv w hi)
  · exact DisplayFailureNotification_inv _ _ _ (RemoveInProgressNotification_inv w hi)

theorem DisplayInProgressNotification_inv (h : Host) (Text : String) (w : World)
    (hi : InProgressInvariant w) : InProgressInvariant (DisplayInProgressNotification h Text w) := by
  cases hq : w.OperationInProgressNotification with
  | some i =>
    rw [DisplayInProgressNotification_of_valid h Text w (by simp [World.IsValid, hq])]
    exact hi
  | none =>
    rw [DisplayInProgressNotification_of_invalid h Text w hq]
    unfold InProgressInvariant at hi
    rw [hq] at hi
    simp only [World.liveInProgress] at hi
    cases hb : h.bAddNotificationReturnsItem
    · simp only [Bool.false_eq_true, if_false]
      unfold InProgressInvariant
      simpa [hq, World.liveInProgress] using hi
    · simp only [if_true]
      unfold InProgressInvariant
      simp [World.liveInProgress, List.filter_append, hi, SNotificationItem.isLiveInProgress]

theorem InProgressInvariant_counts (w : World) (hi : InProgressInvariant w) :
    w.liveInProgress ≤ 1 ∧ (w.liveInProgress = 1 ↔ w.IsValid = true) := by
  unfold InProgressInvariant at hi
  cases hq : w.OperationInProgressNotification with
  | none =>
    rw [hq] at hi
    simp only at hi
    simp [World.IsValid, hq, hi]
  | some i =>
    rw [hq] at hi
    simp [World.IsValid, hq, hi.1]

theorem UnlinkSyncAndReloadPackages_inv (h : Host) (w : World) (hi : InProgressInvariant w) :
    InProgressInvariant (UnlinkSyncAndReloadPackages h w) := by
  cases hok : OkToExit h
  · obtain ⟨_, _, _, hn, hh⟩ := UnlinkSyncAndReloadPackages_refused h w hok
    exact InProgressInvariant_congr hn hh hi
  · simp only [UnlinkSyncAndReloadPackages, hok, if_true, Execute]
    refine InProgressInvariant_congr (ReloadPackages_Notifications _ _ _).1
      (ReloadPackages_Notifications _ _ _).2 ?_
    refine OnSourceControlOperationComplete_inv _ _ _ _ ?_
    refine InProgressInvariant_emit _ _ ?_
    refine DisplayInProgressNotification_inv _ _ _ ?_
    obtain ⟨_, _, _, hc3, hc4⟩ :=
      ConvertPackagePaths_foldl h h.PackagesInContentDir ([], w.emit Event.SaveDirtyPackages)
    obtain ⟨_, _, _, _, _, hu4, hu5⟩ :=
      UnlinkPackages_spec h
        (ConvertPackagePaths h h.PackagesInContentDir (w.emit Event.SaveDirtyPackages)).1
        (ConvertPackagePaths h h.PackagesInContentDir (w.emit Event.SaveDirtyPackages)).2
    refine InProgressInvariant_congr ?_ ?_ hi
    · rw [hu4]
      simpa [ConvertPackagePaths, World.emit] using hc3
    · rw [hu5]
      simpa [ConvertPackagePaths, World.emit] using hc4

theorem WarnInProgress_inv (w : World) (hi : InProgressInvariant w) :
    InProgressInvariant (WarnInProgress w) :=
  InProgressInvariant_congr (by simp [WarnInProgress, World.emit])
    (by simp [WarnInProgress, World.emit]) hi

theorem Call.run_inv (c : Call) (w : World) (hi : InProgressInvariant w) :
    InProgressInvariant (c.run w) := by
  cases c with
  | Push h =>
    simp only [Call.run, PushClicked, Execute]
    split
    · split
      · exact DisplayInProgressNotification_inv _ _ _ (InProgressInvariant_emit _ _ hi)
      · exact DisplayFailureNotification_inv _ _ _ (InProgressInvariant_emit _ _ hi)
    · exact WarnInProgress_inv w hi
  | Sync h =>
    simp only [Call.run, SyncClicked]
    split
    · exact UnlinkSyncAndReloadPackages_inv h w hi
    · exact WarnInProgress_inv w hi
  | Refresh h =>
    simp only [Call.run, RefreshClicked, Execute]
    split
    · split
      · exact DisplayInProgressNotification_inv _ _ _ (InProgressInvariant_emit _ _ hi)
      · exact DisplayFailureNotification_inv _ _ _ (InProgressInvariant_emit _ _ hi)
    · exact WarnInProgress_inv w hi
  | Complete h InOperation InResult =>
    exact OnSourceControlOperationComplete_inv h InOperation InResult w hi

theorem runCalls_inv (cs : List Call) (w : World) (hi : InProgressInvariant w) :
    InProgressInvariant (runCalls cs w) := by
  induction cs generalizing w with
  | nil => exact hi
  | cons c cs ih => exact ih (c.run w) (Call.run_inv c w hi)

theorem SyncClicked_handle (h : Host) (w : World)
    (hv : w.OperationInProgressNotification = none) :
    (SyncClicked h w).OperationInProgressNotification = none := by
  simp only [SyncClicked, World.IsValid, hv, Option.isSome_none, Bool.not_false, if_true]
  cases hok : OkToExit h
  · obtain ⟨_, _, _, _, hh⟩ := UnlinkSyncAndReloadPackages_refused h w hok
    rw [hh, hv]
  · obtain ⟨pre, mid, w3, heq, _, _, _, _, _, hh⟩ := UnlinkSyncAndReloadPackages_ok h w hok
    rw [heq, (ReloadPackages_Notifications _ _ _).2, hh]

theorem UnlinkSyncAndReloadPackages_of_invalid (h : Host) (w : World)
    (hq : w.OperationInProgressNotification = none) (hok : OkToExit h = true) :
    ∃ (pre tail : List Event) (Info : FNotificationInfo),
      emitted w (UnlinkSyncAndReloadPackages h w) =
          pre ++ Event.AddNotification (InProgressInfo (h.GetInProgressString EOperation.Sync)) ::
            ((if h.bAddNotificationReturnsItem then
                [Event.SetCompletionState w.Notifications.length ECompletionState.CS_Pending]
              else []) ++
              Event.Execute (Create EOperation.Sync) [] EConcurrency.Asynchronous false ::
                ((if h.bAddNotificationReturnsItem then
                    [Event.ExpireAndFadeout w.Notifications.length]
                  else []) ++
                  Event.AddNotification Info ::
                    Event.MessageLogInfo "LogSourceControl" Info.Text :: tail)) ∧
        Info.Text =
          (if h.ExecuteResult (Create EOperation.Sync) = ECommandResult.Succeeded then
            h.GetName EOperation.Sync ++ " operation was successful!"
          else "Error: " ++ h.GetName EOperation.Sync ++ " operation failed!") ∧
        (∀ e ∈ pre ++ tail,
          e.isExecute = false ∧ e.isAddNotification = false ∧ e.isExpireAndFadeout = false) ∧
        (UnlinkSyncAndReloadPackages h w).Notifications =
          w.Notifications ++
            (if h.bAddNotificationReturnsItem then
              [{ Info := InProgressInfo (h.GetInProgressString EOperation.Sync),
                 CompletionState := ECompletionState.CS_Pending, bExpired := true },
                { Info := Info, CompletionState := ECompletionState.CS_None, bExpired := false }]
            else []) := by
  have heq : UnlinkSyncAndReloadPackages h w =
      ReloadPackages h
        (UnlinkPackages h
          (ConvertPackagePaths h h.PackagesInContentDir (w.emit Event.SaveDirtyPackages)).1
          (ConvertPackagePaths h h.PackagesInContentDir (w.emit Event.SaveDirtyPackages)).2).1
        (OnSourceControlOperationComplete h (Create EOperation.Sync)
          (h.ExecuteResult (Create EOperation.Sync))
          ((DisplayInProgressNotification h (h.GetInProgressString EOperation.Sync)
            (UnlinkPackages h
              (ConvertPackagePaths h h.PackagesInContentDir (w.emit Event.SaveDirtyPackages)).1
              (ConvertPackagePaths h h.PackagesInContentDir
                (w.emit Event.SaveDirtyPackages)).2).2).emit
            (Event.Execute (Create EOperation.Sync) [] EConcurrency.Asynchronous false))) := by
    simp only [UnlinkSyncAndReloadPackages, hok, if_true, Execute]
    rfl
  rw [heq]
  clear heq
  obtain ⟨errs, hc1, hc2, hc3, hc4⟩ :=
    ConvertPackagePaths_foldl h h.PackagesInContentDir ([], w.emit Event.SaveDirtyPackages)
  have hc1b : (ConvertPackagePaths h h.PackagesInContentDir
      (w.emit Event.SaveDirtyPackages)).2.Trace = w.Trace ++ [Event.SaveDirtyPackages] ++ errs := by
    simpa [ConvertPackagePaths, World.emit] using hc1
  have hc3b : (ConvertPackagePaths h h.PackagesInContentDir
      (w.emit Event.SaveDirtyPackages)).2.Notifications = w.Notifications := by
    simpa [ConvertPackagePaths, World.emit] using hc3
  have hc4b : (ConvertPackagePaths h h.PackagesInContentDir
      (w.emit Event.SaveDirtyPackages)).2.OperationInProgressNotification = none := by
    rw [← hq]
    simpa [ConvertPackagePaths, World.emit] using hc4
  clear hc1 hc3 hc4
  generalize ConvertPackagePaths h h.PackagesInContentDir (w.emit Event.SaveDirtyPackages) = c
    at hc1b hc3b hc4b ⊢
  obtain ⟨_, ul, hu1, _, hu3, hu4, hu5⟩ := UnlinkPackages_spec h c.1 c.2
  rw [hc1b] at hu1
  rw [hc3b] at hu4
  rw [hc4b] at hu5
  generalize UnlinkPackages h c.1 c.2 = u at hu1 hu4 hu5 ⊢
  have hD := DisplayInProgressNotification_of_invalid h
    (h.GetInProgressString EOperation.Sync) u.2 hu5
  obtain ⟨Info, htext, ht, hn⟩ :=
    OnSourceControlOperationComplete_Trace h (Create EOperation.Sync)
      (h.ExecuteResult (Create EOperation.Sync))
      ((DisplayInProgressNotification h (h.GetInProgressString EOperation.Sync) u.2).emit
        (Event.Execute (Create EOperation.Sync) [] EConcurrency.Asynchronous false))
  have hpre : ∀ e ∈ Event.SaveDirtyPackages :: (errs ++ ul),
      e.isExecute = false ∧ e.isAddNotification = false ∧ e.isExpireAndFadeout = false := by
    intro e he
    simp only [List.mem_cons, List.mem_append] at he
    rcases he with he | he | he
    · subst he
      simp [Event.isExecute, Event.isAddNotification, Event.isExpireAndFadeout]
    · have hm := Event.of_isMessageLogError e (hc2 e he)
      exact ⟨hm.1, hm.2.2.2.2.1, hm.2.2.2.2.2⟩
    · exact ⟨(hu3 e he).1, (hu3 e he).2.2.1, (hu3 e he).2.2.2⟩
  have hall : ∀ e ∈ Event.SaveDirtyPackages :: (errs ++ ul) ++
      [Event.UE_LOG "Reloading %d Packages..." u.1.length,
        Event.PackageToolsReloadPackages
          (u.1.filter (fun p => h.FileExists (PackageFilename h p))),
        Event.PackageToolsUnloadPackages
          (u.1.filter (fun p => !h.FileExists (PackageFilename h p)))],
      e.isExecute = false ∧ e.isAddNotification = false ∧ e.isExpireAndFadeout = false := by
    intro e he
    rcases List.mem_append.1 he with he | he
    · exact hpre e he
    · simp only [List.mem_cons, List.mem_singleton, List.not_mem_nil, or_false] at he
      rcases he with he | he | he <;> subst he <;>
        simp [Event.isExecute, Event.isAddNotification, Event.isExpireAndFadeout]
  simp only [SuccessText, FailureText] at htext
  refine ⟨Event.SaveDirtyPackages :: (errs ++ ul),
    [Event.UE_LOG "Reloading %d Packages..." u.1.length,
      Event.PackageToolsReloadPackages
        (u.1.filter (fun p => h.FileExists (PackageFilename h p))),
      Event.PackageToolsUnloadPackages
        (u.1.filter (fun p => !h.FileExists (PackageFilename h p)))],
    Info, ?_, htext, hall, ?_⟩
  · apply emitted_of_append
    rw [ReloadPackages_Trace, ht]
    rw [hD]
    cases hb : h.bAddNotificationReturnsItem
    · simp [World.emit, hu1, hu4, hu5]
    · simp [World.emit, hu1, hu4, hu5]
  · rw [(ReloadPackages_Notifications _ _ _).1, hn, hD]
    cases hb : h.bAddNotificationReturnsItem
    · simp [World.emit, hu4, hu5, RemoveInProgressNotification]
    · simp [World.emit, hu4, hu5, RemoveInProgressNotification, ExpireAndFadeout]
      rw [← hu4, modifyAt_length_append]
      simp

theorem Event.executeOperation_of_not_isExecute (e : Event) (he : e.isExecute = false) :
    e.executeOperation = none := by
  cases e <;> simp [Event.isExecute, Event.executeOperation] at he ⊢

theorem filterMap_executeOperation_eq_nil (l : List Event) (hl : ∀ e ∈ l, e.isExecute = false) :
    l.filterMap Event.executeOperation = [] := by
  rw [List.filterMap_eq_nil_iff]
  intro e he
  exact Event.executeOperation_of_not_isExecute e (hl e he)

theorem OkToExit_of_reached (h : Host) (w : World)
    (hreach : (emitted w (UnlinkSyncAndReloadPackages h w)).any Event.isExecute = true) :
    OkToExit h = true := by
  cases hok : OkToExit h
  · obtain ⟨he, _⟩ := UnlinkSyncAndReloadPackages_refused h w hok
    rw [he] at hreach
    simp [Event.isExecute] at hreach
  · rfl

theorem UnlinkSyncAndReloadPackages_emitted (h : Host) (w : World) (hok : OkToExit h = true) :
    ∃ (pre mid : List Event) (w3 : World),
      UnlinkSyncAndReloadPackages h w =
          ReloadPackages h
            (UnlinkPackages h
              (ConvertPackagePaths h h.PackagesInContentDir (w.emit Event.SaveDirtyPackages)).1
              (ConvertPackagePaths h h.PackagesInContentDir (w.emit Event.SaveDirtyPackages)).2).1
            w3 ∧
        emitted w w3 =
          pre ++ Event.Execute (Create EOperation.Sync) [] EConcurrency.Asynchronous false :: mid ∧
        emitted w (UnlinkSyncAndReloadPackages h w) =
          pre ++ Event.Execute (Create EOperation.Sync) [] EConcurrency.Asynchronous false ::
            (mid ++
              [Event.UE_LOG "Reloading %d Packages..."
                  (UnlinkPackages h
                    (ConvertPackagePaths h h.PackagesInContentDir
                      (w.emit Event.SaveDirtyPackages)).1
                    (ConvertPackagePaths h h.PackagesInContentDir
                      (w.emit Event.SaveDirtyPackages)).2).1.length,
                Event.PackageToolsReloadPackages
                  ((UnlinkPackages h
                    (ConvertPackagePaths h h.PackagesInContentDir
                      (w.emit Event.SaveDirtyPackages)).1
                    (ConvertPackagePaths h h.PackagesInContentDir
                      (w.emit Event.SaveDirtyPackages)).2).1.filter
                    (fun p => h.FileExists (PackageFilename h p))),
                Event.PackageToolsUnloadPackages
                  ((UnlinkPackages h
                    (ConvertPackagePaths h h.PackagesInContentDir
                      (w.emit Event.SaveDirtyPackages)).1
                    (ConvertPackagePaths h h.PackagesInContentDir
                      (w.emit Event.SaveDirtyPackages)).2).1.filter
                    (fun p => !h.FileExists (PackageFilename h p)))]) ∧
        pre.filterMap Event.resetLoadersPackage =
          (UnlinkPackages h
            (ConvertPackagePaths h h.PackagesInContentDir (w.emit Event.SaveDirtyPackages)).1
            (ConvertPackagePaths h h.PackagesInContentDir (w.emit Event.SaveDirtyPackages)).2).1 ∧
        (∀ e ∈ pre, e.isExecute = false ∧ e.isPackageTools = false) ∧
        (∀ e ∈ mid, e.isExecute = false ∧ e.isPackageTools = false ∧ e.isUnlink = false) ∧
        (w.IsValid = false →
          Event.AddNotification (InProgressInfo (h.GetInProgressString EOperation.Sync)) ∈ pre) := by
  obtain ⟨pre, mid, w3, heq, ht, hr, hp, hm, ha, _⟩ := UnlinkSyncAndReloadPackages_ok h w hok
  have hu0 := (UnlinkPackages_spec h
    (ConvertPackagePaths h h.PackagesInContentDir (w.emit Event.SaveDirtyPackages)).1
    (ConvertPackagePaths h h.PackagesInContentDir (w.emit Event.SaveDirtyPackages)).2).1
  rw [hu0]
  refine ⟨pre, mid, w3, heq, emitted_of_append ht, ?_, hr, hp, hm, ha⟩
  apply emitted_of_append
  rw [heq, ReloadPackages_Trace, ht]
  simp

/-! ## The claims -/

/-- C1: while `OperationInProgressNotification` is valid, each of `PushClicked`, `SyncClicked`
and `RefreshClicked` makes no call of `Execute`, touches no package, adds no notification
item, leaves the handle as it was, and emits the warning
"Source control operation already in progress" exactly once. -/
theorem C1_second_command_rejected (h : Host) (w : World) (hv : w.IsValid = true) :
    RejectedInProgress w (PushClicked h w) ∧
      RejectedInProgress w (SyncClicked h w) ∧
      RejectedInProgress w (RefreshClicked h w) := by
  refine ⟨?_, ?_, ?_⟩
  · simpa [PushClicked, hv] using WarnInProgress_rejected w
  · simpa [SyncClicked, hv] using WarnInProgress_rejected w
  · simpa [RefreshClicked, hv] using WarnInProgress_rejected w

/-- Witness of C1 at `busyWorld`, where a push is in flight. -/
theorem C1_second_command_rejected_witness :
    busyWorld.IsValid = true ∧
      RejectedInProgress busyWorld (PushClicked sampleHost busyWorld) ∧
      RejectedInProgress busyWorld (SyncClicked sampleHost busyWorld) ∧
      RejectedInProgress busyWorld (RefreshClicked sampleHost busyWorld) :=
  ⟨by decide, C1_second_command_rejected sampleHost busyWorld (by decide)⟩

/-- C2: in a state where `OperationInProgressNotification` is valid and refers to `Item`,
`OnSourceControlOperationComplete` calls `ExpireAndFadeout` exactly once, on `Item`, for
every result code, and leaves the handle invalid; `RemoveInProgressNotification` in the
resulting state makes no call and changes nothing. -/
theorem C2_indicator_cleared_once (h : Host) (InOperation : FSourceControlOperation)
    (InResult : ECommandResult) (w : World) (Item : Nat)
    (hv : w.OperationInProgressNotification = some Item) :
    (emitted w (OnSourceControlOperationComplete h InOperation InResult w)).filter
        Event.isExpireAndFadeout = [Event.ExpireAndFadeout Item] ∧
      (OnSourceControlOperationComplete h InOperation InResult w).IsValid = false ∧
      RemoveInProgressNotification (OnSourceControlOperationComplete h InOperation InResult w) =
        OnSourceControlOperationComplete h InOperation InResult w ∧
      emitted (OnSourceControlOperationComplete h InOperation InResult w)
        (RemoveInProgressNotification
          (OnSourceControlOperationComplete h InOperation InResult w)) = [] := by
  obtain ⟨Info, _, ht, _⟩ := OnSourceControlOperationComplete_Trace h InOperation InResult w
  have hh := OnSourceControlOperationComplete_handle h InOperation InResult w
  have hr : RemoveInProgressNotification
      (OnSourceControlOperationComplete h InOperation InResult w) =
      OnSourceControlOperationComplete h InOperation InResult w := by
    simp [RemoveInProgressNotification, hh]
  refine ⟨?_, ?_, hr, ?_⟩
  · rw [hv] at ht
    rw [List.append_assoc] at ht
    rw [emitted_of_append ht]
    simp [Event.isExpireAndFadeout]
  · simp [World.IsValid, hh]
  · rw [hr]; simp [emitted]

/-- Witness of C2 at `busyWorld`, whose handle refers to item 0, with a failed result. -/
theorem C2_indicator_cleared_once_witness :
    busyWorld.OperationInProgressNotification = some 0 ∧
      (emitted busyWorld
          (OnSourceControlOperationComplete sampleHost (Create EOperation.GitPush)
            ECommandResult.Failed busyWorld)).filter
        Event.isExpireAndFadeout = [Event.ExpireAndFadeout 0] :=
  ⟨by decide,
    (C2_indicator_cleared_once sampleHost (Create EOperation.GitPush) ECommandResult.Failed
      busyWorld 0 (by decide)).1⟩

/-- C3: for every operation and result code `OnSourceControlOperationComplete` asks for exactly
one notification and writes exactly one info line to the log "LogSourceControl", both with
one text `t`. When the result is `Succeeded`, `t` is the operation name followed by
" operation was successful!"; for every other result code `t` is "Error: ", the operation
name, and " operation failed!". The two texts differ for every name, so `t` is the success
text only for `Succeeded` and the failure text only otherwise; and the item list grows by the
one item the manager made. -/
theorem C3_one_outcome_rendered (h : Host) (InOperation : FSourceControlOperation)
    (InResult : ECommandResult) (w : World) :
    ∃ t : String,
      (emitted w (OnSourceControlOperationComplete h InOperation InResult w)).filterMap
          Event.notificationText = [t] ∧
        (emitted w (OnSourceControlOperationComplete h InOperation InResult w)).filter
          Event.isMessageLogInfo = [Event.MessageLogInfo "LogSourceControl" t] ∧
        (t = h.GetName InOperation.Kind ++ " operation was successful!" ↔
          InResult = ECommandResult.Succeeded) ∧
        (t = "Error: " ++ h.GetName InOperation.Kind ++ " operation failed!" ↔
          InResult ≠ ECommandResult.Succeeded) ∧
        ((OnSourceControlOperationComplete h InOperation InResult w).Notifications.drop
            w.Notifications.length).map (fun n => n.Info.Text) =
          (if h.bAddNotificationReturnsItem then [t] else []) := by
  obtain ⟨Info, htext, ht, hn⟩ := OnSourceControlOperationComplete_Trace h InOperation InResult w
  rw [List.append_assoc] at ht
  have hne := SuccessText_ne_FailureText (h.GetName InOperation.Kind)
  simp only [SuccessText, FailureText] at htext hne
  refine ⟨Info.Text, ?_, ?_, ?_, ?_, ?_⟩
  · rw [emitted_of_append ht]
    cases w.OperationInProgressNotification <;> simp [Event.notificationText]
  · rw [emitted_of_append ht]
    cases w.OperationInProgressNotification <;> simp [Event.isMessageLogInfo]
  · rw [htext]
    by_cases hr : InResult = ECommandResult.Succeeded
    · simp [hr]
    · simp only [hr, if_false, iff_false]
      exact fun he => hne he.symm
  · rw [htext]
    by_cases hr : InResult = ECommandResult.Succeeded
    · simp only [hr, if_true, ne_eq, not_true_eq_false, iff_false]
      exact hne
    · simp [hr]
  · rw [hn, ← RemoveInProgressNotification_length w, List.drop_left]
    split <;> simp

/-- C3 at three completions on `busyWorld`: a succeeded sync renders
"Sync operation was successful!" and nothing else, a failed status update renders
"Error: UpdateStatus operation failed!", and a cancelled push renders
"Error: Push operation failed!". -/
theorem C3_one_outcome_rendered_witness :
    (emitted busyWorld
          (OnSourceControlOperationComplete sampleHost (Create EOperation.Sync)
            ECommandResult.Succeeded busyWorld)).filterMap
        Event.notificationText = ["Sync operation was successful!"] ∧
      (emitted busyWorld
          (OnSourceControlOperationComplete sampleHost (Create EOperation.UpdateStatus)
            ECommandResult.Failed busyWorld)).filterMap
        Event.notificationText = ["Error: UpdateStatus operation failed!"] ∧
      (emitted busyWorld
          (OnSourceControlOperationComplete sampleHost (Create EOperation.GitPush)
            ECommandResult.Cancelled busyWorld)).filter
        Event.isMessageLogInfo =
          [Event.MessageLogInfo "LogSourceControl" "Error: Push operation failed!"] := by
  obtain ⟨t1, h1, _, h13, _, _⟩ :=
    C3_one_outcome_rendered sampleHost (Create EOperation.Sync) ECommandResult.Succeeded
      busyWorld
  obtain ⟨t2, h2, _, _, h24, _⟩ :=
    C3_one_outcome_rendered sampleHost (Create EOperation.UpdateStatus) ECommandResult.Failed
      busyWorld
  obtain ⟨t3, _, h32, _, h34, _⟩ :=
    C3_one_outcome_rendered sampleHost (Create EOperation.GitPush) ECommandResult.Cancelled
      busyWorld
  rw [h1, h2, h32, h13.2 rfl, h24.2 (by decide), h34.2 (by decide)]
  decide

/-- C4 as stated fails at `failedHost` and `idleWorld`: `PushClicked` makes its one asynchronous
call of `Execute`, the provider answers `Failed`, and the handle is not valid when the handler
returns; and at `sampleHost`, where the provider answers `Succeeded`, the handle is not valid
when `SyncClicked` returns either. -/
theorem C4_handle_not_always_valid_on_return :
    idleWorld.IsValid = false ∧
      (emitted idleWorld (PushClicked failedHost idleWorld)).filter Event.isExecute =
        [Event.Execute (Create EOperation.GitPush) [] EConcurrency.Asynchronous true] ∧
      (PushClicked failedHost idleWorld).IsValid = false ∧
      (RefreshClicked failedHost idleWorld).IsValid = false ∧
      (emitted idleWorld (SyncClicked sampleHost idleWorld)).any Event.isExecute = true ∧
      (SyncClicked sampleHost idleWorld).IsValid = false := by
  decide

/-- C4, amended: with no operation in flight, `PushClicked` and `RefreshClicked` each make
exactly one call of `Execute`, asynchronous and with the completion delegate, for Push and
UpdateStatus; they show the in-progress notification when `Execute` answered `Succeeded` and
the failure notification "Error: <name> operation failed!" otherwise, and the handle is valid
on return exactly when `Execute` answered `Succeeded` and the notification manager returned
an item. `SyncClicked` calls `Execute`, once and for Sync, exactly when `SaveDirtyPackages`
returned true and no dirty package is left. In that case it asks for the in-progress
notification and marks the new item pending before the call of `Execute`; after that call it
expires that same item, asks for the one outcome notification and logs its text (the success
text if `Execute` answered `Succeeded`, the failure text otherwise); no other notification is
asked for or expired, and the in-progress item is in the item list as expired at the end. In
every case the handle is not valid when `SyncClicked` returns. -/
theorem C4_one_request_when_idle (h : Host) (w : World) (hv : w.IsValid = false) :
    Launched h (Create EOperation.GitPush) w (PushClicked h w) ∧
      Launched h RefreshOperation w (RefreshClicked h w) ∧
      (SyncClicked h w).IsValid = false ∧
      (emitted w (SyncClicked h w)).filterMap Event.executeOperation =
        (if h.bSaveDirtyPackages = true ∧ h.DirtyWorldPackages ++ h.DirtyContentPackages = []
          then [Create EOperation.Sync] else []) ∧
      ((h.bSaveDirtyPackages = true ∧ h.DirtyWorldPackages ++ h.DirtyContentPackages = []) →
        ∃ (pre tail : List Event) (c : EConcurrency) (Info : FNotificationInfo),
          emitted w (SyncClicked h w) =
              pre ++
                Event.AddNotification (InProgressInfo (h.GetInProgressString EOperation.Sync)) ::
                  ((if h.bAddNotificationReturnsItem then
                      [Event.SetCompletionState w.Notifications.length ECompletionState.CS_Pending]
                    else []) ++
                    Event.Execute (Create EOperation.Sync) [] c false ::
                      ((if h.bAddNotificationReturnsItem then
                          [Event.ExpireAndFadeout w.Notifications.length]
                        else []) ++
                        Event.AddNotification Info ::
                          Event.MessageLogInfo "LogSourceControl" Info.Text :: tail)) ∧
            Info.Text =
              (if h.ExecuteResult (Create EOperation.Sync) = ECommandResult.Succeeded then
                h.GetName EOperation.Sync ++ " operation was successful!"
              else "Error: " ++ h.GetName EOperation.Sync ++ " operation failed!") ∧
            (∀ e ∈ pre ++ tail,
              e.isExecute = false ∧ e.isAddNotification = false ∧
                e.isExpireAndFadeout = false) ∧
            (SyncClicked h w).Notifications =
              w.Notifications ++
                (if h.bAddNotificationReturnsItem then
                  [{ Info := InProgressInfo (h.GetInProgressString EOperation.Sync),
                     CompletionState := ECompletionState.CS_Pending, bExpired := true },
                    { Info := Info, CompletionState := ECompletionState.CS_None,
                      bExpired := false }]
                else [])) := by
  have hq : w.OperationInProgressNotification = none := by
    cases hq : w.OperationInProgressNotification with
    | none => rfl
    | some i => simp [World.IsValid, hq] at hv
  have hs : SyncClicked h w = UnlinkSyncAndReloadPackages h w := by
    simp [SyncClicked, hv]
  refine ⟨PushClicked_of_invalid h w hq, RefreshClicked_of_invalid h w hq, ?_, ?_, ?_⟩
  · simp [World.IsValid, SyncClicked_handle h w hq]
  · rw [hs]
    cases hok : OkToExit h
    · obtain ⟨he, _⟩ := UnlinkSyncAndReloadPackages_refused h w hok
      have hg : ¬(h.bSaveDirtyPackages = true ∧
          h.DirtyWorldPackages ++ h.DirtyContentPackages = []) := by
        rw [← OkToExit_iff, hok]
        simp
      rw [he, if_neg hg]
      simp [Event.executeOperation]
    · obtain ⟨pre, mid, w3, _, _, hall, _, hp, hm, _⟩ :=
        UnlinkSyncAndReloadPackages_emitted h w hok
      rw [hall, if_pos ((OkToExit_iff h).1 hok)]
      simp only [List.filterMap_append, List.filterMap_cons, Event.executeOperation,
        List.filterMap_nil]
      rw [filterMap_executeOperation_eq_nil pre (fun e he => (hp e he).1),
        filterMap_executeOperation_eq_nil mid (fun e he => (hm e he).1)]
      simp
  · intro hsaved
    obtain ⟨pre, tail, Info, he, htext, hall, hn⟩ :=
      UnlinkSyncAndReloadPackages_of_invalid h w hq ((OkToExit_iff h).2 hsaved)
    rw [hs]
    exact ⟨pre, tail, EConcurrency.Asynchronous, Info, he, htext, hall, hn⟩

/-- Witness of C4 (amended) at `idleWorld`. With `sampleHost` the provider accepts the push and
the handle is valid when `PushClicked` returns; with `failedHost` the one notification asked
for is "Error: UpdateStatus operation failed!"; and `SyncClicked` with `sampleHost` leaves the
in-progress item expired and the outcome item "Sync operation was successful!" behind it. -/
theorem C4_one_request_when_idle_witness :
    idleWorld.IsValid = false ∧
      (PushClicked sampleHost idleWorld).IsValid = true ∧
      (emitted idleWorld (RefreshClicked failedHost idleWorld)).filterMap Event.notificationText =
        ["Error: UpdateStatus operation failed!"] ∧
      (SyncClicked sampleHost idleWorld).Notifications.map
          (fun n => (n.Info.Text, n.CompletionState, n.bExpired)) =
        [("Syncing...", ECompletionState.CS_Pending, true),
          ("Sync operation was successful!", ECompletionState.CS_None, false)] := by
  refine ⟨by decide, ?_, ?_, ?_⟩
  · exact (C4_one_request_when_idle sampleHost idleWorld (by decide)).1.2.2.2.2.1.2
      ⟨by decide, by decide⟩
  · rw [(C4_one_request_when_idle failedHost idleWorld (by decide)).2.1.2.2.1]
    decide
  · obtain ⟨_, _, _, Info, _, htext, _, hn⟩ :=
      (C4_one_request_when_idle sampleHost idleWorld (by decide)).2.2.2.2 ⟨by decide, by decide⟩
    rw [hn]
    have ht2 : Info.Text = "Sync operation was successful!" := by
      rw [htext]
      decide
    simp [ht2, sampleHost, idleWorld, InProgressInfo]

/-- C5: in every run of `UnlinkSyncAndReloadPackages` that reaches the provider there is exactly
one call of `Execute`, for the Sync operation; every package `UnlinkPackages` returned has its
loaders reset before that call, in the order of the list, and nothing is reloaded or unloaded
before it; after it nothing is unlinked, and the run ends with `ReloadPackages` applied to
exactly the list `UnlinkPackages` returned. -/
theorem C5_unlink_then_sync_then_reload (h : Host) (w : World)
    (hreach : (emitted w (UnlinkSyncAndReloadPackages h w)).any Event.isExecute = true) :
    ∃ (loaded : List UPackage) (pre mid : List Event) (c : EConcurrency) (w3 : World),
      loaded =
          (UnlinkPackages h
            (ConvertPackagePaths h h.PackagesInContentDir (w.emit Event.SaveDirtyPackages)).1
            (ConvertPackagePaths h h.PackagesInContentDir (w.emit Event.SaveDirtyPackages)).2).1 ∧
        UnlinkSyncAndReloadPackages h w = ReloadPackages h loaded w3 ∧
        emitted w w3 = pre ++ Event.Execute (Create EOperation.Sync) [] c false :: mid ∧
        emitted w (UnlinkSyncAndReloadPackages h w) =
          pre ++ Event.Execute (Create EOperation.Sync) [] c false ::
            (mid ++
              [Event.UE_LOG "Reloading %d Packages..." loaded.length,
                Event.PackageToolsReloadPackages
                  (loaded.filter (fun p => h.FileExists (PackageFilename h p))),
                Event.PackageToolsUnloadPackages
                  (loaded.filter (fun p => !h.FileExists (PackageFilename h p)))]) ∧
        pre.filterMap Event.resetLoadersPackage = loaded ∧
        (∀ e ∈ pre, e.isExecute = false ∧ e.isPackageTools = false) ∧
        (∀ e ∈ mid, e.isExecute = false ∧ e.isPackageTools = false ∧ e.isUnlink = false) := by
  obtain ⟨pre, mid, w3, heq, h3, hall, hr, hp, hm, _⟩ :=
    UnlinkSyncAndReloadPackages_emitted h w (OkToExit_of_reached h w hreach)
  exact ⟨_, pre, mid, EConcurrency.Asynchronous, w3, rfl, heq, h3, hall, hr, hp, hm⟩

/-- Witness of C5 at `sampleHost` and `idleWorld`: the provider is reached, and the calls end
with the reload of "A" and the unload of "B", the two packages `UnlinkPackages` returned. -/
theorem C5_unlink_then_sync_then_reload_witness :
    (emitted idleWorld (UnlinkSyncAndReloadPackages sampleHost idleWorld)).any Event.isExecute =
        true ∧
      ∃ (pre mid : List Event) (c : EConcurrency),
        emitted idleWorld (UnlinkSyncAndReloadPackages sampleHost idleWorld) =
            pre ++ Event.Execute (Create EOperation.Sync) [] c false ::
              (mid ++
                [Event.UE_LOG "Reloading %d Packages..." 2,
                  Event.PackageToolsReloadPackages
                    [{ Name := "A", bContainsMap := false, bFullyLoaded := true }],
                  Event.PackageToolsUnloadPackages
                    [{ Name := "B", bContainsMap := false, bFullyLoaded := true }]]) ∧
          pre.filterMap Event.resetLoadersPackage =
            [{ Name := "A", bContainsMap := false, bFullyLoaded := true },
              { Name := "B", bContainsMap := false, bFullyLoaded := true }] := by
  refine ⟨by decide, ?_⟩
  obtain ⟨loaded, pre, mid, c, w3, hl, _, _, hall, hr, _⟩ :=
    C5_unlink_then_sync_then_reload sampleHost idleWorld (by decide)
  have hl2 : loaded =
      [{ Name := "A", bContainsMap := false, bFullyLoaded := true },
        { Name := "B", bContainsMap := false, bFullyLoaded := true }] := by
    rw [hl]
    decide
  subst hl2
  exact ⟨pre, mid, c, hall, hr⟩

/-- C6, evaluated on the code at `sampleHost` and `idleWorld`: the one call of `Execute` that
`UnlinkSyncAndReloadPackages` makes for the Sync operation has the concurrency mode
`Asynchronous` and no completion delegate, and the result code handed to
`OnSourceControlOperationComplete` is what that call returned. -/
theorem C6_sync_is_requested_asynchronously :
    (emitted idleWorld (UnlinkSyncAndReloadPackages sampleHost idleWorld)).filter Event.isExecute =
        [Event.Execute (Create EOperation.Sync) [] EConcurrency.Asynchronous false] ∧
      Event.Execute (Create EOperation.Sync) [] EConcurrency.Synchronous false ∉
        emitted idleWorld (UnlinkSyncAndReloadPackages sampleHost idleWorld) := by
  decide

/-- C7: when the LevelEditor module is loaded and no extender in its list has the handle of
the new delegate, `Register` appends exactly the new extender and stores its handle in
`ViewMenuExtenderHandle`, and `Unregister` then leaves the list as it was before `Register`;
when the module is not loaded, `Register` and `Unregister` change nothing. -/
theorem C7_register_unregister_round_trip (NewHandle : FDelegateHandle) (w : World)
    (hd : ∀ l, w.LevelEditorMenuExtenders = some l → ∀ e ∈ l, e.Handle ≠ NewHandle) :
    match w.LevelEditorMenuExtenders with
    | some l =>
      (Register NewHandle w).LevelEditorMenuExtenders = some (l ++ [ViewMenuExtender NewHandle]) ∧
        (Register NewHandle w).ViewMenuExtenderHandle = NewHandle ∧
        (Unregister (Register NewHandle w)).LevelEditorMenuExtenders = some l ∧
        Unregister (Register NewHandle w) = { w with ViewMenuExtenderHandle := NewHandle }
    | none =>
      Register NewHandle w = w ∧ Unregister w = w ∧ Unregister (Register NewHandle w) = w := by
  cases hl : w.LevelEditorMenuExtenders with
  | none => simp [Register, Unregister, hl]
  | some l =>
    have hf : List.filter (fun Extender => !(Extender.Handle == NewHandle)) l = l := by
      rw [List.filter_eq_self]
      intro e he
      simpa using hd l hl e he
    have h1 : (Register NewHandle w).LevelEditorMenuExtenders =
        some (l ++ [ViewMenuExtender NewHandle]) := by
      simp [Register, hl, ViewMenuExtender]
    have h2 : (Register NewHandle w).ViewMenuExtenderHandle = NewHandle := by
      simp [Register, hl, ViewMenuExtender]
    have h3 : Unregister (Register NewHandle w) =
        { ViewMenuExtenderHandle := NewHandle
          OperationInProgressNotification := w.OperationInProgressNotification
          LevelEditorMenuExtenders := some l
          Notifications := w.Notifications
          Trace := w.Trace } := by
      simp only [Unregister, h1, h2]
      simp [Register, hl, List.filter_append, hf, ViewMenuExtender]
    refine ⟨h1, h2, ?_, h3⟩
    rw [h3]

/-- Witness of C7 at `extendedWorld` (handles 5 and 6 registered) and the new handle 7. -/
theorem C7_register_unregister_round_trip_witness :
    (Register 7 extendedWorld).LevelEditorMenuExtenders =
        some [{ Handle := 5, Target := "A" }, { Handle := 6, Target := "B" }, ViewMenuExtender 7] ∧
      (Unregister (Register 7 extendedWorld)).LevelEditorMenuExtenders =
        extendedWorld.LevelEditorMenuExtenders := by
  have hw := C7_register_unregister_round_trip 7 extendedWorld (by
    intro l hl e he
    have hl2 : l = [{ Handle := 5, Target := "A" }, { Handle := 6, Target := "B" }] := by
      simpa [extendedWorld, idleWorld] using hl.symm
    subst hl2
    simp at he
    rcases he with he | he <;> simp [he])
  exact ⟨hw.1, hw.2.2.1⟩

/-- C8: `UnlinkSyncAndReloadPackages` calls the provider exactly when `SaveDirtyPackages`
returned true and no dirty world or content package is left; otherwise it only prompts to save
and emits the warning "Save All Assets before attempting to Sync!" once: no package is
unlinked, reloaded or unloaded, no notification is created and the handle is unchanged. -/
theorem C8_sync_refused_unless_saved (h : Host) (w : World) :
    ((emitted w (UnlinkSyncAndReloadPackages h w)).any Event.isExecute = true ↔
        (h.bSaveDirtyPackages = true ∧ h.DirtyWorldPackages ++ h.DirtyContentPackages = [])) ∧
      ((h.bSaveDirtyPackages = false ∨ h.DirtyWorldPackages ++ h.DirtyContentPackages ≠ []) →
        RefusedUnsaved w (UnlinkSyncAndReloadPackages h w)) := by
  constructor
  · rw [← OkToExit_iff]
    constructor
    · exact OkToExit_of_reached h w
    · intro hok
      obtain ⟨pre, mid, w3, _, _, hall, _⟩ := UnlinkSyncAndReloadPackages_emitted h w hok
      rw [hall]
      simp [Event.isExecute]
  · intro hno
    apply UnlinkSyncAndReloadPackages_refused
    cases hok : OkToExit h
    · rfl
    · have := (OkToExit_iff h).1 hok
      rcases hno with hno | hno
      · rw [this.1] at hno
        simp at hno
      · exact absurd this.2 hno

/-- C8 at `unsavedHost`, where a content package is still dirty: the sync is refused. -/
theorem C8_sync_refused_unless_saved_witness :
    RefusedUnsaved idleWorld (UnlinkSyncAndReloadPackages unsavedHost idleWorld) ∧
      (emitted idleWorld (UnlinkSyncAndReloadPackages unsavedHost idleWorld)).any Event.isExecute =
        false :=
  ⟨(C8_sync_refused_unless_saved unsavedHost idleWorld).2 (Or.inr (by decide)), by decide⟩

/-- C9: for every list of packages, `ReloadPackages` hands `PackageTools::ReloadPackages` the
sub-list of the packages whose file exists and `PackageTools::UnloadPackages` the sub-list of
those whose file does not exist, where the file of a package is `LongPackageNameToFilename`
of its name with the map extension if the package contains a map and the asset extension
otherwise; both sub-lists are in the order of the input, no package is in both, every package
of the input is in one of them, and the two lengths add up to the length of the input. -/
theorem C9_reload_partitions_by_file_existence (h : Host) (l : List UPackage) (w : World) :
    ∃ reloaded unloaded : List UPackage,
      emitted w (ReloadPackages h l w) =
          [Event.UE_LOG "Reloading %d Packages..." l.length,
            Event.PackageToolsReloadPackages reloaded,
            Event.PackageToolsUnloadPackages unloaded] ∧
        reloaded =
          l.filter (fun p =>
            h.FileExists
              (h.LongPackageNameToFilename p.Name
                (if p.bContainsMap then h.MapPackageExtension else h.AssetPackageExtension))) ∧
        unloaded =
          l.filter (fun p =>
            !h.FileExists
              (h.LongPackageNameToFilename p.Name
                (if p.bContainsMap then h.MapPackageExtension else h.AssetPackageExtension))) ∧
        reloaded.Sublist l ∧ unloaded.Sublist l ∧
        (∀ p, ¬(p ∈ reloaded ∧ p ∈ unloaded)) ∧
        (∀ p, p ∈ l ↔ (p ∈ reloaded ∨ p ∈ unloaded)) ∧
        reloaded.length + unloaded.length = l.length := by
  have ht := ReloadPackages_Trace h l w
  simp only [PackageFilename] at ht
  refine ⟨_, _, emitted_of_append ht, rfl, rfl,
    List.filter_sublist l, List.filter_sublist l, ?_, ?_, ?_⟩
  · intro p hp
    simp only [List.mem_filter] at hp
    have h2 := hp.2.2
    rw [hp.1.2] at h2
    simp at h2
  · intro p
    simp only [List.mem_filter]
    cases h.FileExists (h.LongPackageNameToFilename p.Name
      (if p.bContainsMap then h.MapPackageExtension else h.AssetPackageExtension)) <;> simp
  · exact length_filter_add_length_filter_not _ l

/-- C9 at `mapHost` and four packages: the map "M" is reloaded because "M.umap" exists, the
asset "A" is reloaded because "A.uasset" exists, the asset "X" is unloaded although "X.umap"
exists, and the map "N" is unloaded although "N.uasset" exists. -/
theorem C9_reload_partitions_by_file_existence_witness :
    emitted idleWorld
        (ReloadPackages mapHost
          [{ Name := "M", bContainsMap := true, bFullyLoaded := true },
            { Name := "X", bContainsMap := false, bFullyLoaded := true },
            { Name := "A", bContainsMap := false, bFullyLoaded := true },
            { Name := "N", bContainsMap := true, bFullyLoaded := true }] idleWorld) =
      [Event.UE_LOG "Reloading %d Packages..." 4,
        Event.PackageToolsReloadPackages
          [{ Name := "M", bContainsMap := true, bFullyLoaded := true },
            { Name := "A", bContainsMap := false, bFullyLoaded := true }],
        Event.PackageToolsUnloadPackages
          [{ Name := "X", bContainsMap := false, bFullyLoaded := true },
            { Name := "N", bContainsMap := true, bFullyLoaded := true }]] := by
  obtain ⟨r, u, he, hr, hu, _⟩ :=
    C9_reload_partitions_by_file_existence mapHost
      [{ Name := "M", bContainsMap := true, bFullyLoaded := true },
        { Name := "X", bContainsMap := false, bFullyLoaded := true },
        { Name := "A", bContainsMap := false, bFullyLoaded := true },
        { Name := "N", bContainsMap := true, bFullyLoaded := true }] idleWorld
  rw [he, hr, hu]
  decide

/-- C10: from a state with an invalid handle and no live in-progress item, after any sequence
of `PushClicked`, `SyncClicked`, `RefreshClicked` and `OnSourceControlOperationComplete` calls,
with any answers of the provider and the editor, at most one in-progress item is live, and one
is live exactly when `OperationInProgressNotification` is valid; and
`DisplayInProgressNotification` changes nothing when the handle is valid. -/
theorem C10_at_most_one_in_progress_item (w0 : World) (hv : w0.IsValid = false)
    (h0 : w0.liveInProgress = 0) (cs : List Call) :
    (runCalls cs w0).liveInProgress ≤ 1 ∧
      ((runCalls cs w0).liveInProgress = 1 ↔ (runCalls cs w0).IsValid = true) ∧
      (∀ (h : Host) (Text : String) (w : World),
        w.IsValid = true → DisplayInProgressNotification h Text w = w) := by
  have hi : InProgressInvariant w0 := by
    unfold InProgressInvariant
    cases hq : w0.OperationInProgressNotification with
    | none => exact h0
    | some i => simp [World.IsValid, hq] at hv
  have hc := InProgressInvariant_counts _ (runCalls_inv cs w0 hi)
  exact ⟨hc.1, hc.2, DisplayInProgressNotification_of_valid⟩

/-- Witness of C10: a push, a refused second push, a sync, the completion of the push, and a
refresh the provider rejects, from `idleWorld`. -/
theorem C10_at_most_one_in_progress_item_witness :
    idleWorld.IsValid = false ∧ idleWorld.liveInProgress = 0 ∧
      (runCalls
          [Call.Push sampleHost, Call.Push sampleHost, Call.Sync sampleHost,
            Call.Complete sampleHost (Create EOperation.GitPush) ECommandResult.Succeeded,
            Call.Refresh failedHost] idleWorld).liveInProgress ≤ 1 :=
  ⟨by decide, by decide,
    (C10_at_most_one_in_progress_item idleWorld (by decide) (by decide)
      [Call.Push sampleHost, Call.Push sampleHost, Call.Sync sampleHost,
        Call.Complete sampleHost (Create EOperation.GitPush) ECommandResult.Succeeded,
        Call.Refresh failedHost]).1⟩

end GitSourceControl
